import Mathlib

set_option maxHeartbeats 1000000

/-!
Shallow embedding of the core subsystems of the 3D-Home-Design-App
repository: the layout serializer (`src/state/StorageManager.js`), the
selection/drag engine (`SelectionSystem`), the placement engine
(`src/systems/PlacementSystem.js`) and the appearance mutator
(`PropertiesPanel`).  JavaScript numbers are modelled as exact rationals,
JavaScript `undefined`/`null` as `Option`, and the JS falsy rules
(`'' `, `0`, `null`, `undefined` are falsy) are made explicit in the
helper functions below.
-/

/-- A 3-component vector (three.js `Vector3` / `Euler` triples). -/
structure Vec3 where
  x : ℚ
  y : ℚ
  z : ℚ
deriving DecidableEq

/-- JS truthiness of a possibly-undefined string: `undefined` and `''` are falsy. -/
def strTruthy : Option String → Bool
  | none => false
  | some s => !(s == "")

/-- JS truthiness of a possibly-undefined number used as an id: `undefined` and `0` are falsy. -/
def natTruthy : Option ℕ → Bool
  | none => false
  | some n => !(n == 0)

/-- JS `a || d` for a string-valued `a` with string default `d`. -/
def jsStrOrD (a : Option String) (dflt : String) : String :=
  match a with
  | some s => if s == "" then dflt else s
  | none => dflt

/-- JS `a || b || d` for string values. -/
def jsStrChain (a b : Option String) (dflt : String) : String :=
  jsStrOrD a (jsStrOrD b dflt)

/-- JS `a || d` for a numeric id-valued `a` (0 falsy). -/
def jsNatOrD (a : Option ℕ) (dflt : ℕ) : ℕ :=
  match a with
  | some n => if n == 0 then dflt else n
  | none => dflt

/-- JS `a || b || d` for numeric id values. -/
def jsNatChain (a b : Option ℕ) (dflt : ℕ) : ℕ :=
  jsNatOrD a (jsNatOrD b dflt)

/-- JS `Math.min` on rationals (kernel-reducible). -/
def ratMin (a b : ℚ) : ℚ := if a ≤ b then a else b

/-- JS `Math.max` on rationals (kernel-reducible). -/
def ratMax (a b : ℚ) : ℚ := if a ≤ b then b else a

/-- JS `Math.abs` on rationals (kernel-reducible). -/
def ratAbs (a : ℚ) : ℚ := if a < 0 then -a else a

/-- A catalog entry record (`furnitureData` in `userData` / serialized form).
Fields are optional so that the empty object `\x7b\x7d` appearing in
`obj.userData?.furnitureData || \x7b\x7d` is representable (all fields absent). -/
structure FurnitureData where
  name : Option String
  path : Option String
  id : Option ℕ
deriving DecidableEq

/-- The empty JS object used as default furniture data. -/
def emptyFurnitureData : FurnitureData := ⟨none, none, none⟩

/-- A three.js material as observed by the serializer and the appearance
mutator: base color (absent on materials without a color channel, stored as
its 24-bit hex value since `getHexString`/`set` round-trip exactly),
metalness/roughness (absent on non-PBR materials), opacity, the
transparency flag and the ad-hoc `_isCloned` marker. -/
structure Material where
  color : Option ℕ
  metalness : Option ℚ
  roughness : Option ℚ
  opacity : ℚ
  transparent : Bool
  isCloned : Bool
deriving DecidableEq

/-- A mesh descendant of a placed object, in `traverse` order
(`child.isMesh` nodes only; group nodes carry no material). -/
structure Mesh where
  name : String
  uuid : String
  material : Material
deriving DecidableEq

/-- The `userData` of a placed object, restricted to the fields the
serializer reads and writes (`id`, display `name` and `isSelectable` do not
feed back into serialization; the nondeterministic `Date.now()+random` id is
omitted). -/
structure UserData where
  furnitureType : Option String
  furniturePath : Option String
  furnitureId : Option ℕ
  furnitureData : Option FurnitureData
  isSelectable : Bool
deriving DecidableEq

/-- A placed object as seen by the serializer: root name, `userData`,
transform triples, and its mesh descendants. -/
structure Obj3D where
  name : String
  userData : UserData
  position : Vec3
  rotation : Vec3
  scale : Vec3
  meshes : List Mesh
deriving DecidableEq

/-- A serialized per-sub-mesh material delta (`materialMods` entry). -/
structure MatMod where
  childName : String
  color : Option ℕ
  metalness : Option ℚ
  roughness : Option ℚ
  opacity : ℚ
deriving DecidableEq

/-- A serialized placed-object record.  `furnitureData` is `none` when the
field is absent altogether (legacy documents); the serializer always emits
`some` (possibly the empty record). -/
structure SerializedObject where
  name : String
  furnitureType : String
  furniturePath : String
  furnitureId : ℕ
  furnitureData : Option FurnitureData
  position : Vec3
  rotation : Vec3
  scale : Vec3
  materialMods : Option (List MatMod)
deriving DecidableEq

/-- The persisted layout document. -/
structure LayoutDoc where
  version : String
  timestamp : ℕ
  objects : List SerializedObject
deriving DecidableEq

namespace StorageManager

/-- The delta recorded for one cloned mesh: `childName` is
`child.name || child.uuid`, the channels are read off the material. -/
def modOf (m : Mesh) : MatMod :=
  { childName := if m.name == "" then m.uuid else m.name,
    color := m.material.color,
    metalness := m.material.metalness,
    roughness := m.material.roughness,
    opacity := m.material.opacity }

/-- The delta list over a mesh list (cloned meshes only). -/
def modsOf (meshes : List Mesh) : List MatMod :=
  meshes.filterMap (fun m => if m.material.isCloned then some (modOf m) else none)

/-- `_serializeMaterialMods`: collect a delta for every mesh whose material
carries the `_isCloned` marker; `null` when there are none. -/
def serializeMaterialMods (obj : Obj3D) : Option (List MatMod) :=
  let mods := modsOf obj.meshes
  if mods == [] then none else some mods

/-- `_serializeObject`. -/
def serializeObject (obj : Obj3D) : SerializedObject :=
  let furnitureData := obj.userData.furnitureData.getD emptyFurnitureData
  { name := obj.name,
    furnitureType := jsStrChain obj.userData.furnitureType furnitureData.name "unknown",
    furniturePath := jsStrChain obj.userData.furniturePath furnitureData.path "",
    furnitureId := jsNatChain obj.userData.furnitureId furnitureData.id 0,
    furnitureData := some furnitureData,
    position := obj.position,
    rotation := obj.rotation,
    scale := obj.scale,
    materialMods := serializeMaterialMods obj }

/-- `const modelPath = objData.furniturePath || objData.furnitureData?.path`. -/
def resolveModelPath (d : SerializedObject) : Option String :=
  if d.furniturePath == "" then d.furnitureData.bind (fun fd => fd.path)
  else some d.furniturePath

/-- `_applyMaterialMods`: for every mesh, look up the first delta whose
`childName` matches the mesh name or uuid; on a match clone the material,
mark it cloned and overwrite the recorded channels. -/
def applyMaterialMods (mods : List MatMod) (meshes : List Mesh) : List Mesh :=
  meshes.map (fun m =>
    match mods.find? (fun mo => mo.childName == m.name || mo.childName == m.uuid) with
    | none => m
    | some mo =>
      let mat0 := { m.material with isCloned := true }
      let mat1 := if mo.color.isSome && mat0.color.isSome then
          { mat0 with color := mo.color } else mat0
      let mat2 := match mo.metalness with
        | some v => { mat1 with metalness := some v }
        | none => mat1
      let mat3 := match mo.roughness with
        | some v => { mat2 with roughness := some v }
        | none => mat2
      let mat4 := { mat3 with opacity := mo.opacity,
                              transparent := decide (mo.opacity < 1) }
      { m with material := mat4 })

/-- `_createFallbackPrimitive` (StorageManager): a single gray
`BoxGeometry(1, 0.5, 1)` mesh with a `MeshStandardMaterial` of color
`0x888888` (three.js defaults: metalness 0, roughness 1, opacity 1), with a
fresh uuid and empty name.  The `type` argument of the source function is
unused. -/
def createFallbackPrimitive (freshUuid : String) : List Mesh :=
  [ { name := "",
      uuid := freshUuid,
      material := { color := some 0x888888, metalness := some 0,
                    roughness := some 1, opacity := 1,
                    transparent := false, isCloned := false } } ]

/-- `_deserializeObject`: resolve the model path, attempt the load, fall
back to the gray-box primitive, rebuild `userData`, restore the transform
exactly and re-apply the recorded material deltas.  The asynchronous loader
is a function returning `none` on load failure; `freshUuid` stands for the
uuid three.js assigns to the freshly built fallback mesh. -/
def deserializeObject (freshUuid : String) (loader : String → Option (List Mesh))
    (d : SerializedObject) : Obj3D :=
  let modelPath := resolveModelPath d
  let loaded : Option (List Mesh) :=
    match modelPath with
    | some p => if p == "" then none else loader p
    | none => none
  let meshes :=
    match loaded with
    | some ms => ms
    | none => createFallbackPrimitive freshUuid
  let meshes1 :=
    match d.materialMods with
    | some mods => applyMaterialMods mods meshes
    | none => meshes
  { name := d.name,
    userData := { furnitureType := some d.furnitureType,
                  furniturePath := modelPath,
                  furnitureId := some d.furnitureId,
                  furnitureData := some (d.furnitureData.getD
                    { name := some d.furnitureType, path := modelPath,
                      id := some d.furnitureId }),
                  isSelectable := true },
    position := d.position,
    rotation := d.rotation,
    scale := d.scale,
    meshes := meshes1 }

/-- `saveLayout`: nothing to save on an empty placed-object list (return
`false` without touching the store); otherwise build the versioned document
and write it.  The store is the single localStorage entry. -/
def saveLayout (now : ℕ) (placedObjects : List Obj3D) (store : Option LayoutDoc) :
    Bool × Option LayoutDoc :=
  if placedObjects.length == 0 then (false, store)
  else
    let layoutData : LayoutDoc :=
      { version := "1.0", timestamp := now,
        objects := placedObjects.map serializeObject }
    (true, some layoutData)

end StorageManager

namespace PropertiesPanel

/-- A snapshot entry captured by `_storeOriginalColors` for one sub-mesh. -/
structure OrigEntry where
  uuid : String
  color : Option ℕ
  metalness : Option ℚ
  roughness : Option ℚ
  opacity : ℚ
deriving DecidableEq

/-- The `originalColors` map: object uuid to its per-mesh snapshot list. -/
abbrev Store := List (String × List OrigEntry)

/-- The selected object as seen by the panel: its uuid (the key of the
snapshot map) and its mesh descendants. -/
structure PPObject where
  uuid : String
  meshes : List Mesh
deriving DecidableEq

/-- The snapshot entry recorded for one mesh. -/
def snapEntry (m : Mesh) : OrigEntry :=
  { uuid := m.uuid, color := m.material.color,
    metalness := m.material.metalness, roughness := m.material.roughness,
    opacity := m.material.opacity }

/-- The snapshot `_storeOriginalColors` records for an object. -/
def snapshotOf (o : PPObject) : List OrigEntry :=
  o.meshes.map snapEntry

/-- `_storeOriginalColors`: capture the snapshot unless one is already
stored for this object uuid. -/
def storeOriginalColors (st : Store) (o : PPObject) : Store :=
  match List.find? (fun e => e.1 == o.uuid) st with
  | some _ => st
  | none => st ++ [(o.uuid, snapshotOf o)]

/-- Copy-on-write: clone the material (marking the clone) unless it is
already a clone. -/
def cloneIfShared (mat : Material) : Material :=
  if mat.isCloned then mat else { mat with isCloned := true }

/-- `_applyColor`: snapshot first, then clone-and-tint every mesh that has
a color channel. -/
def applyColor (c : ℕ) (o : PPObject) (st : Store) : PPObject × Store :=
  let st1 := storeOriginalColors st o
  let meshes := o.meshes.map (fun m =>
    let mat := cloneIfShared m.material
    let mat := if mat.color.isSome then { mat with color := some c } else mat
    { m with material := mat })
  ({ o with meshes := meshes }, st1)

/-- The four material presets of `_applyMaterial`. -/
inductive Preset
  | standard
  | glossy
  | matte
  | metallic
deriving DecidableEq

/-- The fixed (metalness, roughness) pair of each preset. -/
def presetSettings : Preset → ℚ × ℚ
  | .standard => (1/10, 8/10)
  | .glossy => (3/10, 2/10)
  | .matte => (0, 1)
  | .metallic => (9/10, 3/10)

/-- `_applyMaterial`: snapshot first, then clone and write the preset pair
into every mesh exposing the channels. -/
def applyMaterialPreset (p : Preset) (o : PPObject) (st : Store) : PPObject × Store :=
  let st1 := storeOriginalColors st o
  let s := presetSettings p
  let meshes := o.meshes.map (fun m =>
    let mat := cloneIfShared m.material
    let mat := if mat.metalness.isSome then { mat with metalness := some s.1 } else mat
    let mat := if mat.roughness.isSome then { mat with roughness := some s.2 } else mat
    { m with material := mat })
  ({ o with meshes := meshes }, st1)

/-- `_applyOpacity`: clone and set opacity plus the coupled transparency
flag.  Note: unlike color and preset application, the source takes no
snapshot here. -/
def applyOpacity (v : ℚ) (o : PPObject) (st : Store) : PPObject × Store :=
  let meshes := o.meshes.map (fun m =>
    let mat := cloneIfShared m.material
    let mat := { mat with transparent := decide (v < 1), opacity := v }
    { m with material := mat })
  ({ o with meshes := meshes }, st)

/-- Restore one mesh from its snapshot entry (`_resetColor` body). -/
def resetMesh (entries : List OrigEntry) (m : Mesh) : Mesh :=
  match List.find? (fun e => e.uuid == m.uuid) entries with
  | none => m
  | some orig =>
    let mat := m.material
    let mat := if orig.color.isSome && mat.color.isSome then
        { mat with color := orig.color } else mat
    let mat := match orig.metalness with
      | some v => { mat with metalness := some v }
      | none => mat
    let mat := match orig.roughness with
      | some v => { mat with roughness := some v }
      | none => mat
    let mat := { mat with opacity := orig.opacity,
                          transparent := decide (orig.opacity < 1) }
    { m with material := mat }

/-- `_resetColor`: no-op without a snapshot; otherwise restore every mesh
from the stored entries.  The snapshot map is returned unchanged — the
source never deletes the entry. -/
def resetColor (o : PPObject) (st : Store) : PPObject × Store :=
  match List.find? (fun e => e.1 == o.uuid) st with
  | none => (o, st)
  | some entry => ({ o with meshes := o.meshes.map (resetMesh entry.2) }, st)

/-- One appearance mutation, as driven by the panel controls. -/
inductive MutOp
  | color (c : ℕ)
  | preset (p : Preset)
  | opacity (v : ℚ)
deriving DecidableEq

/-- Apply one mutation. -/
def applyOp : MutOp → PPObject × Store → PPObject × Store
  | .color c, (o, st) => applyColor c o st
  | .preset p, (o, st) => applyMaterialPreset p o st
  | .opacity v, (o, st) => applyOpacity v o st

/-- Apply a sequence of mutations left to right. -/
def applyOps (ops : List MutOp) (s : PPObject × Store) : PPObject × Store :=
  ops.foldl (fun s op => applyOp op s) s

/-- Whether the first operation of a sequence captures the snapshot
(color and preset application snapshot; opacity does not). -/
def firstOpSnapshots : List MutOp → Prop
  | .color _ :: _ => True
  | .preset _ :: _ => True
  | _ => False

instance : ∀ ops, Decidable (firstOpSnapshots ops) := by
  intro ops
  unfold firstOpSnapshots
  split <;> infer_instance

/-- The observable channel values of one mesh. -/
def chanOfMesh (m : Mesh) : Option ℕ × Option ℚ × Option ℚ × ℚ :=
  (m.material.color, m.material.metalness, m.material.roughness, m.material.opacity)

/-- The channel availability of one mesh. -/
def presOfMesh (m : Mesh) : Bool × Bool × Bool :=
  (m.material.color.isSome, m.material.metalness.isSome, m.material.roughness.isSome)

/-- The observable channel values of every mesh, in order. -/
def channelValues (o : PPObject) : List (Option ℕ × Option ℚ × Option ℚ × ℚ) :=
  o.meshes.map chanOfMesh

end PropertiesPanel

namespace SelectionSystem

/-- The emissive state of one mesh of a placed item.  `hasEmissive` is
whether the material exposes an emissive channel (`child.material.emissive`
defined); the numeric fields are the current emissive hex color and
`emissiveIntensity`. -/
structure EmMesh where
  uuid : ℕ
  hasEmissive : Bool
  emissive : ℕ
  intensity : ℚ
deriving DecidableEq

/-- A placed item as seen by the selection engine: its id, the
`userData.isSelected` flag and its mesh descendants. -/
structure SelItem where
  id : ℕ
  isSelected : Bool
  meshes : List EmMesh
deriving DecidableEq

/-- One entry of the `originalMaterials` map (keyed by mesh uuid):
`emissive?.clone()` and `emissiveIntensity` captured before highlighting
(either may be undefined when the material lacks the channel). -/
structure OrigMat where
  uuid : ℕ
  emissive : Option ℕ
  intensity : Option ℚ
deriving DecidableEq

/-- The mutable state of the selection engine together with the externally
owned orbit-controls enabled flag (`ControlsManager`). -/
structure SelState where
  items : List SelItem
  selected : Option ℕ
  origMaterials : List OrigMat
  isDragging : Bool
  orbitEnabled : Bool
deriving DecidableEq

/-- `_applyHighlightMaterial` on one mesh: record the original emissive
state unless already recorded, then tint (emissive `0x003300`, intensity
`0.5`) when the channel exists. -/
def highlightMesh (st : List OrigMat) (m : EmMesh) : List OrigMat × EmMesh :=
  let st1 :=
    match List.find? (fun e => e.uuid == m.uuid) st with
    | some _ => st
    | none => st ++ [{ uuid := m.uuid,
                       emissive := if m.hasEmissive then some m.emissive else none,
                       intensity := if m.hasEmissive then some m.intensity else none }]
  let m1 := if m.hasEmissive then { m with emissive := 0x003300, intensity := 1/2 } else m
  (st1, m1)

/-- `_applyHighlightMaterial` over a mesh list, threading the map. -/
def highlightMeshes (st : List OrigMat) : List EmMesh → List OrigMat × List EmMesh
  | [] => (st, [])
  | m :: ms =>
    let r1 := highlightMesh st m
    let r2 := highlightMeshes r1.1 ms
    (r2.1, r1.2 :: r2.2)

/-- JS `original.emissiveIntensity || 0`. -/
def jsQOrZero : Option ℚ → ℚ
  | none => 0
  | some q => if q == 0 then 0 else q

/-- `_restoreOriginalMaterials` on one mesh: restore the recorded emissive
color and intensity when both the channel and the recorded color exist. -/
def restoreMesh (st : List OrigMat) (m : EmMesh) : EmMesh :=
  match List.find? (fun e => e.uuid == m.uuid) st with
  | none => m
  | some orig =>
    if m.hasEmissive then
      match orig.emissive with
      | some ev => { m with emissive := ev, intensity := jsQOrZero orig.intensity }
      | none => m
    else m

/-- Update the item with the given id. -/
def updateItem (i : ℕ) (f : SelItem → SelItem) (items : List SelItem) : List SelItem :=
  items.map (fun it => if it.id == i then f it else it)

/-- `_restoreOriginalMaterials` applied to the item `i`, clearing the map. -/
def restoreOriginalMaterials (i : ℕ) (s : SelState) : SelState :=
  { s with items := updateItem i (fun it =>
      { it with meshes := it.meshes.map (restoreMesh s.origMaterials) }) s.items,
           origMaterials := [] }

/-- Highlight the item `i` (`_createHighlight` adds the scene-parented box
helper, which carries no engine state we track, followed by
`_applyHighlightMaterial`). -/
def applyHighlightTo (i : ℕ) (s : SelState) : SelState :=
  match List.find? (fun it => it.id == i) s.items with
  | none => s
  | some it =>
    let r := highlightMeshes s.origMaterials it.meshes
    { s with items := updateItem i (fun it2 => { it2 with meshes := r.2 }) s.items,
             origMaterials := r.1 }

/-- `deselect`: restore the highlight state of the current selection, clear
its flag, null the selection reference and publish the change (the state
subscriber sees the already-nulled reference and does nothing). -/
def deselect (s : SelState) : SelState :=
  match s.selected with
  | none => s
  | some a =>
    let s1 := restoreOriginalMaterials a s
    let s2 := { s1 with items := updateItem a (fun it => { it with isSelected := false }) s1.items }
    { s2 with selected := none }

/-- The second half of `select`: set the reference and flag, then apply the
highlight (publishing to shared state re-enters `_updateSelection`, which
returns immediately because the reference already matches). -/
def selectApply (i : ℕ) (s : SelState) : SelState :=
  let s1 := { s with selected := some i,
                     items := updateItem i (fun it => { it with isSelected := true }) s.items }
  applyHighlightTo i s1

/-- `select`: deselect any different current selection first, then apply
the new selection. -/
def select (i : ℕ) (s : SelState) : SelState :=
  let s1 := if s.selected.isSome && !(s.selected == some i) then deselect s else s
  selectApply i s1

/-- `_updateSelection`, the shared-state subscriber used for external
selection changes: a no-op when the reference already matches; otherwise
restore and unflag the old selection (without re-publishing) before
flagging and highlighting the new one. -/
def updateSelection (obj : Option ℕ) (s : SelState) : SelState :=
  if obj == s.selected then s
  else
    match obj with
    | some i =>
      let s1 :=
        match s.selected with
        | some a =>
          let sa := restoreOriginalMaterials a s
          { sa with items := updateItem a (fun it => { it with isSelected := false }) sa.items }
        | none => s
      selectApply i s1
    | none =>
      match s.selected with
      | some a =>
        let sa := restoreOriginalMaterials a s
        let sb := { sa with items := updateItem a (fun it => { it with isSelected := false }) sa.items }
        { sb with selected := none }
      | none => s

/-- `_startDrag`: raise the drag flag (and record the floor offset and set
the cursor, neither of which affects the tracked state).  The source never
touches the orbit controls here. -/
def startDrag (s : SelState) : SelState :=
  { s with isDragging := true }

/-- `_endDrag`: clear the drag flag.  The source never touches the orbit
controls here either. -/
def endDrag (s : SelState) : SelState :=
  { s with isDragging := false }

/-- `_onMouseDown` with the raycast outcome already resolved: a hit on the
selected item starts a drag, a hit on another item selects it, and a miss
deselects unless dragging. -/
def onMouseDown (hit : Option ℕ) (s : SelState) : SelState :=
  match hit with
  | some i => if s.selected == some i then startDrag s else select i s
  | none => if !s.isDragging then deselect s else s

/-- `_onMouseUp`. -/
def onMouseUp (s : SelState) : SelState :=
  if s.isDragging then endDrag s else s

/-- Escape key (`_onKeyDown`): deselect when something is selected. -/
def onEscape (s : SelState) : SelState :=
  match s.selected with
  | none => s
  | some _ => deselect s

/-- The pointer/selection events driving the engine. -/
inductive SelEvent
  | mouseDown (hit : Option ℕ)
  | mouseUp
  | escape
  | extSelect (obj : Option ℕ)
deriving DecidableEq

/-- One step of the engine. -/
def step (e : SelEvent) (s : SelState) : SelState :=
  match e with
  | .mouseDown hit => onMouseDown hit s
  | .mouseUp => onMouseUp s
  | .escape => onEscape s
  | .extSelect o => updateSelection o s

/-- Run a sequence of events. -/
def run (evs : List SelEvent) (s : SelState) : SelState :=
  evs.foldl (fun s e => step e s) s

/-- A well-formed initial state: nothing selected or highlighted, no drag
in progress, orbit controls enabled, distinct item ids and globally
distinct mesh uuids. -/
def InitOk (s : SelState) : Prop :=
  s.selected = none ∧ s.origMaterials = [] ∧ s.isDragging = false ∧
  s.orbitEnabled = true ∧
  (∀ it ∈ s.items, it.isSelected = false) ∧
  (s.items.map (fun it => it.id)).Nodup ∧
  (s.items.flatMap (fun it => it.meshes.map (fun m => m.uuid))).Nodup

instance : ∀ s, Decidable (InitOk s) := by
  intro s
  unfold InitOk
  infer_instance

/-- Events are valid for a state when every referenced id is a real item:
the raycast only ever resolves to children of the furniture container, and
external selection only publishes existing items. -/
def EvsValid (s : SelState) : List SelEvent → Prop
  | [] => True
  | .mouseDown (some i) :: rest => i ∈ s.items.map (fun it => it.id) ∧ EvsValid s rest
  | .extSelect (some i) :: rest => i ∈ s.items.map (fun it => it.id) ∧ EvsValid s rest
  | _ :: rest => EvsValid s rest

instance : ∀ s evs, Decidable (EvsValid s evs) := by
  intro s evs
  induction evs with
  | nil => exact inferInstanceAs (Decidable True)
  | cons e rest ih =>
    cases e with
    | mouseDown hit =>
      cases hit with
      | none => exact ih
      | some i => exact @instDecidableAnd _ _ _ ih
    | mouseUp => exact ih
    | escape => exact ih
    | extSelect o =>
      cases o with
      | none => exact ih
      | some i => exact @instDecidableAnd _ _ _ ih

/-- At most one item carries the selection flag. -/
def AtMostOneSelected (items : List SelItem) : Prop :=
  ∀ i j, (h1 : i < items.length) → (h2 : j < items.length) →
    (items.get ⟨i, h1⟩).isSelected = true → (items.get ⟨j, h2⟩).isSelected = true → i = j

end SelectionSystem

/-- ASCII lowercase of a character (JS `toLowerCase` on the ASCII names
appearing in the catalog). -/
def lowerChar (c : Char) : Char :=
  if 'A' ≤ c && c ≤ 'Z' then Char.ofNat (c.toNat + 32) else c

/-- Lowercased character list of a string. -/
def lowerList (s : String) : List Char := s.toList.map lowerChar

/-- Boolean check that the first list is a prefix of the second. -/
def prefixEq : List Char → List Char → Bool
  | [], _ => true
  | _ :: _, [] => false
  | a :: as, b :: bs => a == b && prefixEq as bs

/-- Boolean substring containment on character lists. -/
def containsSub (n : List Char) : List Char → Bool
  | [] => prefixEq n []
  | c :: t => prefixEq n (c :: t) || containsSub n t

/-- JS `hay.includes(needle)` on an already-lowercased character list. -/
def includesStr (hay : List Char) (needle : String) : Bool :=
  containsSub needle.toList hay

/-- A catalog entry handed to the placement engine (`furnitureData` with
all fields present). -/
structure CatalogEntry where
  name : String
  path : String
  id : ℕ
deriving DecidableEq

namespace PlacementSystem

/-- The geometries used by the procedural fallbacks: `BoxGeometry(w, h, d)`
and `CylinderGeometry(rTop, rBottom, h)`, both spanning `±h/2` around the
mesh position on the y axis. -/
inductive Geom
  | box (w h d : ℚ)
  | cyl (rTop rBottom h : ℚ)
deriving DecidableEq

/-- A material color as constructed by the fallback builders: a hex
constant, `setHSL(hue/360, s, l)`, or a `multiplyScalar` copy of an HSL
color (cabinet doors). -/
inductive ColorSpec
  | hex (n : ℕ)
  | hsl (hue : ℕ) (s l : ℚ)
  | scaled (hue : ℕ) (s l : ℚ) (k : ℚ)
deriving DecidableEq

/-- A mesh of a (loaded or procedural) model: geometry, local position and
material color. -/
structure GMesh where
  geom : Geom
  pos : Vec3
  color : ColorSpec
deriving DecidableEq

/-- The coarse furniture classification vocabulary of
`_createPrimitiveFallback` (the `default` branch is `dflt` here). -/
inductive FurnType
  | chair
  | table
  | couch
  | bed
  | cabinet
  | dflt
deriving DecidableEq

/-- The name-substring classification of `_createPrimitiveFallback`. -/
def classifyName (nm : String) : FurnType :=
  let n := lowerList nm
  if includesStr n "chair" || includesStr n "arm" then .chair
  else if includesStr n "table" then .table
  else if includesStr n "couch" || includesStr n "sofa" then .couch
  else if includesStr n "bed" then .bed
  else if includesStr n "cabinet" || includesStr n "cupboard" then .cabinet
  else .dflt

/-- `_createPrimitiveByType`: the concrete meshes of each procedural
placeholder, with the id-derived HSL color `c` for the main material. -/
def createPrimitiveByType (t : FurnType) (c : ColorSpec) (hue : ℕ) : List GMesh :=
  match t with
  | .chair =>
    [ ⟨.box (1/2) (1/20) (1/2), ⟨0, 9/20, 0⟩, c⟩,
      ⟨.box (1/2) (1/2) (1/20), ⟨0, 7/10, -(11/50)⟩, c⟩,
      ⟨.cyl (1/50) (1/50) (9/20), ⟨-(1/5), 9/40, -(1/5)⟩, .hex 0x4a4a4a⟩,
      ⟨.cyl (1/50) (1/50) (9/20), ⟨1/5, 9/40, -(1/5)⟩, .hex 0x4a4a4a⟩,
      ⟨.cyl (1/50) (1/50) (9/20), ⟨-(1/5), 9/40, 1/5⟩, .hex 0x4a4a4a⟩,
      ⟨.cyl (1/50) (1/50) (9/20), ⟨1/5, 9/40, 1/5⟩, .hex 0x4a4a4a⟩ ]
  | .table =>
    [ ⟨.box (6/5) (1/20) (4/5), ⟨0, 3/4, 0⟩, c⟩,
      ⟨.cyl (3/100) (3/100) (73/100), ⟨-(1/2), 73/200, -(3/10)⟩, .hex 0x5D4037⟩,
      ⟨.cyl (3/100) (3/100) (73/100), ⟨1/2, 73/200, -(3/10)⟩, .hex 0x5D4037⟩,
      ⟨.cyl (3/100) (3/100) (73/100), ⟨-(1/2), 73/200, 3/10⟩, .hex 0x5D4037⟩,
      ⟨.cyl (3/100) (3/100) (73/100), ⟨1/2, 73/200, 3/10⟩, .hex 0x5D4037⟩ ]
  | .couch =>
    [ ⟨.box 2 (2/5) (9/10), ⟨0, 3/10, 0⟩, c⟩,
      ⟨.box 2 (1/2) (3/20), ⟨0, 11/20, -(19/50)⟩, c⟩,
      ⟨.box (3/20) (3/10) (9/10), ⟨-(23/25), 9/20, 0⟩, c⟩,
      ⟨.box (3/20) (3/10) (9/10), ⟨23/25, 9/20, 0⟩, c⟩ ]
  | .bed =>
    [ ⟨.box (9/5) (3/10) (11/5), ⟨0, 7/20, 0⟩, .hex 0xf5f5dc⟩,
      ⟨.box (19/10) (1/5) (23/10), ⟨0, 1/10, 0⟩, .hex 0x8B4513⟩,
      ⟨.box (19/10) (4/5) (1/10), ⟨0, 3/5, -(11/10)⟩, .hex 0x8B4513⟩ ]
  | .cabinet =>
    [ ⟨.box (4/5) (6/5) (1/2), ⟨0, 3/5, 0⟩, c⟩,
      ⟨.box (7/20) (11/10) (1/50), ⟨-(9/50), 3/5, 13/50⟩, .scaled hue (6/10) (1/2) (4/5)⟩,
      ⟨.box (7/20) (11/10) (1/50), ⟨9/50, 3/5, 13/50⟩, .scaled hue (6/10) (1/2) (4/5)⟩ ]
  | .dflt =>
    [ ⟨.box (3/5) (3/5) (3/5), ⟨0, 3/10, 0⟩, c⟩ ]

/-- `_createPrimitiveFallback` (PlacementSystem): classify by display name
and build the typed placeholder with the id-derived color
`setHSL(((id * 37) % 360) / 360, 0.6, 0.5)`. -/
def createPrimitiveFallback (fd : CatalogEntry) : List GMesh :=
  let hue := (fd.id * 37) % 360
  createPrimitiveByType (classifyName fd.name) (.hsl hue (6/10) (1/2)) hue

/-- `_createFallbackPrimitive` (StorageManager), in the geometric view used
for placeholder comparison: a single gray `BoxGeometry(1, 0.5, 1)` mesh at
the origin, for every furniture type. -/
def storageFallbackPrimitive (furnitureType : String) : List GMesh :=
  [ ⟨.box 1 (1/2) 1, ⟨0, 0, 0⟩, .hex 0x888888⟩ ]

/-- Vertical half-extent of a geometry. -/
def geomHalfY : Geom → ℚ
  | .box _ h _ => h / 2
  | .cyl _ _ h => h / 2

/-- Lowest local y of a mesh. -/
def meshMinY (m : GMesh) : ℚ := m.pos.y - geomHalfY m.geom

/-- Highest local y of a mesh. -/
def meshMaxY (m : GMesh) : ℚ := m.pos.y + geomHalfY m.geom

/-- Minimum of a rational list (0 for the empty list; the placement claims
assume at least one mesh, matching three.js's empty `Box3` never entering
the reposition branch). -/
def rlistMin : List ℚ → ℚ
  | [] => 0
  | a :: t => t.foldl ratMin a

/-- Maximum of a rational list (0 for the empty list). -/
def rlistMax : List ℚ → ℚ
  | [] => 0
  | a :: t => t.foldl ratMax a

/-- `Box3().setFromObject(model).min.y` before scaling, with the model
positioned at floor height (`position.y = 0`). -/
def localMinY (ms : List GMesh) : ℚ := rlistMin (ms.map meshMinY)

/-- `Box3().setFromObject(model).max.y` before scaling. -/
def localMaxY (ms : List GMesh) : ℚ := rlistMax (ms.map meshMaxY)

/-- `Box3().setFromObject(model).min.y` after `scale.setScalar(s)`
(per-mesh world minima scaled by `s`, then the box union). -/
def scaledMinY (s : ℚ) (ms : List GMesh) : ℚ :=
  rlistMin (ms.map (fun m => s * meshMinY m))

/-- The type-specific target height table of `_applyScale`. -/
def targetHeightOf (nm : String) : ℚ :=
  let n := lowerList nm
  if includesStr n "chair" then 9/10
  else if includesStr n "table" then 3/4
  else if includesStr n "couch" || includesStr n "sofa" then 4/5
  else if includesStr n "bed" then 3/5
  else if includesStr n "cabinet" || includesStr n "cupboard" then 6/5
  else if includesStr n "tv" then 3/5
  else if includesStr n "fridge" then 9/5
  else if includesStr n "wardrobe" then 2
  else 1

/-- The outcome of `_applyScale`: the uniform scale factor written by
`scale.setScalar` (1 when the rescale branch is not taken) and the final
`position.y`. -/
structure ScaleOutcome where
  scaleFactor : ℚ
  posY : ℚ
deriving DecidableEq

/-- `_applyScale`: rescale toward the type target height when the height
deviates by more than 0.3 (scale clamped to [0.1, 3]), then lift the model
so its lowest point touches the floor — but only when that lowest point is
below the floor (`if (minY < 0)`). -/
def applyScale (nm : String) (ms : List GMesh) : ScaleOutcome :=
  let sizeY := localMaxY ms - localMinY ms
  let targetHeight := targetHeightOf nm
  let s :=
    if sizeY > 1/100 then
      if ratAbs (sizeY - targetHeight) > 3/10 then
        ratMax (1/10) (ratMin 3 (targetHeight / sizeY))
      else 1
    else 1
  let minY := scaledMinY s ms
  { scaleFactor := s, posY := if minY < 0 then -minY else 0 }

/-- The geometric outcome of `_placeFurniture`: the model (loaded, or the
procedural fallback when the load failed), positioned on the floor and run
through `_applyScale`. -/
def placeFurniture (loaded : Option (List GMesh)) (fd : CatalogEntry) :
    ScaleOutcome × List GMesh :=
  let ms :=
    match loaded with
    | some m => m
    | none => createPrimitiveFallback fd
  (applyScale fd.name ms, ms)

/-- The placed model's minimum world-space y coordinate. -/
def placedMinY (loaded : Option (List GMesh)) (fd : CatalogEntry) : ℚ :=
  let r := placeFurniture loaded fd
  r.1.posY + scaledMinY r.1.scaleFactor r.2

end PlacementSystem

namespace SelectionSystem

/-- `_constrainToRoom`: clamp a candidate position to the room rectangle
(`ROOM_CONFIG` width = depth = 10, margin 0.3) shrunk by the selected
object's world half-extents; y passes through. -/
def constrainToRoom (objectHalfWidth objectHalfDepth : ℚ) (position : Vec3) : Vec3 :=
  let margin : ℚ := 3/10
  let halfWidth : ℚ := 10/2 - margin
  let halfDepth : ℚ := 10/2 - margin
  ⟨ratMax (-halfWidth + objectHalfWidth) (ratMin (halfWidth - objectHalfWidth) position.x),
   position.y,
   ratMax (-halfDepth + objectHalfDepth) (ratMin (halfDepth - objectHalfDepth) position.z)⟩

/-- `_onMouseMove` while dragging: subtract the recorded drag offset from
the floor intersection, clamp to the room, and write x and z only (y is
left at the current value). -/
def onMouseMoveNewPos (intersectPoint dragOffset : Vec3)
    (objectHalfWidth objectHalfDepth : ℚ) (current : Vec3) : Vec3 :=
  let newPosition : Vec3 :=
    ⟨intersectPoint.x - dragOffset.x, intersectPoint.y - dragOffset.y,
     intersectPoint.z - dragOffset.z⟩
  let c := constrainToRoom objectHalfWidth objectHalfDepth newPosition
  ⟨c.x, current.y, c.z⟩

end SelectionSystem

namespace StorageManager

/-- Serialize then deserialize one object (the per-item round trip of
`saveLayout` followed by `loadLayout`). -/
def roundTrip (freshUuid : String) (loader : String → Option (List Mesh))
    (obj : Obj3D) : Obj3D :=
  deserializeObject freshUuid loader (serializeObject obj)

/-- Pointwise relation between a freshly loaded mesh and the corresponding
original mesh: same name, same channel availability, and a pristine
(unmarked) material. -/
def MeshPairOk (m o : Mesh) : Prop :=
  m.name = o.name ∧
  m.material.color.isSome = o.material.color.isSome ∧
  m.material.metalness.isSome = o.material.metalness.isSome ∧
  m.material.roughness.isSome = o.material.roughness.isSome ∧
  m.material.isCloned = false

instance : ∀ m o, Decidable (MeshPairOk m o) := by
  intro m o
  unfold MeshPairOk
  infer_instance

/-- A successful reload of the same asset: mesh-for-mesh the same
(nonempty, pairwise distinct) sub-mesh names and channel availability,
pristine materials, and fresh uuids that collide with no recorded name. -/
def FreshMatch (ms orig : List Mesh) : Prop :=
  List.Forall₂ MeshPairOk ms orig ∧
  (∀ o ∈ orig, o.name ≠ "") ∧
  (orig.map Mesh.name).Nodup ∧
  (∀ m ∈ ms, ∀ o ∈ orig, m.uuid ≠ o.name)

instance : ∀ ms orig, Decidable (FreshMatch ms orig) := by
  intro ms orig
  unfold FreshMatch
  infer_instance

end StorageManager

namespace PropertiesPanel

/-- The mesh uuids of an object, in order. -/
def uuidsOf (o : PPObject) : List String := o.meshes.map Mesh.uuid

/-- Channel availability of every mesh, in order. -/
def channelPresence (o : PPObject) : List (Bool × Bool × Bool) :=
  o.meshes.map presOfMesh

end PropertiesPanel

namespace SelectionSystem

/-- Find an item by id. -/
def findItem (i : ℕ) (s : SelState) : Option SelItem :=
  List.find? (fun it => it.id == i) s.items

/-- The meshes of an item after `_applyHighlightMaterial`. -/
def highlightedMeshes (ms : List EmMesh) : List EmMesh :=
  ms.map (fun m =>
    if m.hasEmissive then { m with emissive := 0x003300, intensity := 1/2 } else m)

/-- The `originalMaterials` content recorded while highlighting a pristine
mesh list. -/
def storeOf (ms : List EmMesh) : List OrigMat :=
  ms.map (fun m =>
    { uuid := m.uuid,
      emissive := if m.hasEmissive then some m.emissive else none,
      intensity := if m.hasEmissive then some m.intensity else none })

/-- The reachability invariant of the selection engine relative to a
well-formed initial state: when nothing is selected every item is pristine
and the original-material map is empty; when item `a` is selected, every
other item is pristine, `a` is flagged and highlighted, and the map holds
exactly `a`'s pre-highlight emissive state. -/
def Inv (s0 s : SelState) : Prop :=
  s.orbitEnabled = s0.orbitEnabled ∧
  match s.selected with
  | none => s.items = s0.items ∧ s.origMaterials = []
  | some a =>
    (findItem a s0).isSome ∧
    List.Forall₂ (fun it it0 =>
      it.id = it0.id ∧
      (if it0.id = a then
        it = { it0 with isSelected := true, meshes := highlightedMeshes it0.meshes }
      else it = it0)) s.items s0.items ∧
    (∀ it0, findItem a s0 = some it0 → s.origMaterials = storeOf it0.meshes)

end SelectionSystem

/-! Concrete fixtures used by counterexamples and witnesses. -/

/-- A placed chair whose single sub-mesh carries an edited (cloned)
material. -/
def sampleChair : Obj3D :=
  { name := "Furniture_Chair_12",
    userData := { furnitureType := some "Chair",
                  furniturePath := some "models/chair01.glb",
                  furnitureId := some 12,
                  furnitureData := some { name := some "Chair",
                                          path := some "models/chair01.glb",
                                          id := some 12 },
                  isSelectable := true },
    position := ⟨1, 0, 2⟩,
    rotation := ⟨0, 157/100, 0⟩,
    scale := ⟨1, 1, 1⟩,
    meshes := [ { name := "seat", uuid := "u1",
                  material := { color := some 0xff0000, metalness := some 0,
                                roughness := some 1, opacity := 1,
                                transparent := false, isCloned := true } },
                { name := "legs", uuid := "u2",
                  material := { color := some 0x4a4a4a, metalness := some 0,
                                roughness := some 1, opacity := 1,
                                transparent := false, isCloned := false } } ] }

/-- A fresh reload of the chair asset: same sub-mesh names, fresh uuids,
pristine materials. -/
def sampleChairFresh : List Mesh :=
  [ { name := "seat", uuid := "v1",
      material := { color := some 0x8b4513, metalness := some 0,
                    roughness := some 1, opacity := 1,
                    transparent := false, isCloned := false } },
    { name := "legs", uuid := "v2",
      material := { color := some 0x222222, metalness := some 0,
                    roughness := some 1, opacity := 1,
                    transparent := false, isCloned := false } } ]

/-- A loader that succeeds only for the chair asset. -/
def sampleLoader : String → Option (List Mesh) :=
  fun p => if p == "models/chair01.glb" then some sampleChairFresh else none

/-- A serialized record whose top-level and nested asset paths disagree
(possible for hand-edited or legacy documents). -/
def samplePathDoc : SerializedObject :=
  { name := "Furniture_Chair_12",
    furnitureType := "Chair",
    furniturePath := "top-level.glb",
    furnitureId := 12,
    furnitureData := some { name := some "Chair", path := some "nested.glb",
                            id := some 12 },
    position := ⟨0, 0, 0⟩,
    rotation := ⟨0, 0, 0⟩,
    scale := ⟨1, 1, 1⟩,
    materialMods := none }

/-- A loader that tags the produced mesh with the path it was asked for. -/
def taggingLoader : String → Option (List Mesh) :=
  fun p => some [ { name := p, uuid := "w1",
                    material := { color := some 0, metalness := some 0,
                                  roughness := some 1, opacity := 1,
                                  transparent := false, isCloned := false } } ]

/-- An appearance-panel object with one fully featured sub-mesh. -/
def samplePPObject : PropertiesPanel.PPObject :=
  { uuid := "obj1",
    meshes := [ { name := "body", uuid := "u1",
                  material := { color := some 0x111111, metalness := some (1/2),
                                roughness := some (1/2), opacity := 1,
                                transparent := false, isCloned := false } } ] }

/-- A selection-engine initial state with two pristine items. -/
def sampleSelInit : SelectionSystem.SelState :=
  { items := [ { id := 1, isSelected := false,
                 meshes := [ { uuid := 10, hasEmissive := true, emissive := 0x101010,
                               intensity := 1 } ] },
               { id := 2, isSelected := false,
                 meshes := [ { uuid := 20, hasEmissive := true, emissive := 0x202020,
                               intensity := 1 },
                             { uuid := 21, hasEmissive := false, emissive := 0,
                               intensity := 0 } ] } ],
    selected := none,
    origMaterials := [],
    isDragging := false,
    orbitEnabled := true }

/-! Theorems. -/

/-- C10: saving a layout with an empty placed-item list returns `false`
and leaves the persistent store untouched, so a previously saved document
is never overwritten or cleared by saving an empty room. -/
theorem c10_empty_save_no_write (now : ℕ) (placedObjects : List Obj3D)
    (store : Option LayoutDoc) (h : placedObjects = []) :
    StorageManager.saveLayout now placedObjects store = (false, store) := by
  subst h
  rfl

/-- C10 witness: a concrete empty save keeps the stored document. -/
theorem c10_empty_save_no_write_witness :
    ([] : List Obj3D) = [] ∧
    StorageManager.saveLayout 7 [] (some ⟨"1.0", 3, []⟩) =
      (false, some ⟨"1.0", 3, []⟩) :=
  ⟨rfl, c10_empty_save_no_write 7 [] (some ⟨"1.0", 3, []⟩) rfl⟩

/-- The explicit `ratMin` agrees with the order-theoretic minimum. -/
theorem ratMin_eq_min (a b : ℚ) : ratMin a b = min a b := by
  rw [ratMin, min_def]

/-- The explicit `ratMax` agrees with the order-theoretic maximum. -/
theorem ratMax_eq_max (a b : ℚ) : ratMax a b = max a b := by
  rw [ratMax, max_def]

/-- The explicit `ratAbs` agrees with the absolute value. -/
theorem ratAbs_eq_abs (a : ℚ) : ratAbs a = |a| := by
  by_cases h : a < 0
  · rw [ratAbs, if_pos h, abs_of_neg h]
  · rw [ratAbs, if_neg h, abs_of_nonneg (le_of_not_lt h)]

/-- C4 counterexample: with an object half-width of 6 (footprint wider
than the room), a drag update writes x = 13/10, violating the claimed
bound `|x| ≤ halfWidth - margin - objHalfWidth` (which is negative). -/
theorem c4_bound_counterexample :
    (SelectionSystem.onMouseMoveNewPos ⟨0, 0, 0⟩ ⟨0, 0, 0⟩ 6 0 ⟨0, 0, 0⟩).x = 13/10 ∧
    ¬ (|(SelectionSystem.onMouseMoveNewPos ⟨0, 0, 0⟩ ⟨0, 0, 0⟩ 6 0 ⟨0, 0, 0⟩).x| ≤
        10/2 - 3/10 - 6) := by
  have hx : (SelectionSystem.onMouseMoveNewPos ⟨0, 0, 0⟩ ⟨0, 0, 0⟩ 6 0 ⟨0, 0, 0⟩).x
      = 13/10 := by
    norm_num [SelectionSystem.onMouseMoveNewPos, SelectionSystem.constrainToRoom,
      ratMin, ratMax]
  refine ⟨hx, ?_⟩
  rw [hx, abs_of_nonneg (by norm_num : (0:ℚ) ≤ 13/10)]
  norm_num

/-- C4 (amended): provided the object's half-extents fit inside the usable
room rectangle (objHalfWidth ≤ halfWidth − margin and likewise for depth),
every drag update writes an (x, z) with `|x| ≤ halfWidth − margin −
objHalfWidth` and `|z| ≤ halfDepth − margin − objHalfDepth`, leaves y
unchanged, and clamps candidates beyond a wall exactly to the boundary. -/
theorem c4_drag_updates_stay_in_bounds (intersectPoint dragOffset current : Vec3)
    (objectHalfWidth objectHalfDepth : ℚ)
    (hw : objectHalfWidth ≤ 10/2 - 3/10) (hd : objectHalfDepth ≤ 10/2 - 3/10) :
    |(SelectionSystem.onMouseMoveNewPos intersectPoint dragOffset objectHalfWidth
        objectHalfDepth current).x| ≤ 10/2 - 3/10 - objectHalfWidth ∧
    |(SelectionSystem.onMouseMoveNewPos intersectPoint dragOffset objectHalfWidth
        objectHalfDepth current).z| ≤ 10/2 - 3/10 - objectHalfDepth ∧
    (SelectionSystem.onMouseMoveNewPos intersectPoint dragOffset objectHalfWidth
        objectHalfDepth current).y = current.y ∧
    (10/2 - 3/10 - objectHalfWidth < intersectPoint.x - dragOffset.x →
      (SelectionSystem.onMouseMoveNewPos intersectPoint dragOffset objectHalfWidth
        objectHalfDepth current).x = 10/2 - 3/10 - objectHalfWidth) ∧
    (intersectPoint.x - dragOffset.x < -(10/2 - 3/10) + objectHalfWidth →
      (SelectionSystem.onMouseMoveNewPos intersectPoint dragOffset objectHalfWidth
        objectHalfDepth current).x = -(10/2 - 3/10) + objectHalfWidth) ∧
    (10/2 - 3/10 - objectHalfDepth < intersectPoint.z - dragOffset.z →
      (SelectionSystem.onMouseMoveNewPos intersectPoint dragOffset objectHalfWidth
        objectHalfDepth current).z = 10/2 - 3/10 - objectHalfDepth) ∧
    (intersectPoint.z - dragOffset.z < -(10/2 - 3/10) + objectHalfDepth →
      (SelectionSystem.onMouseMoveNewPos intersectPoint dragOffset objectHalfWidth
        objectHalfDepth current).z = -(10/2 - 3/10) + objectHalfDepth) := by
  simp only [SelectionSystem.onMouseMoveNewPos, SelectionSystem.constrainToRoom,
    ratMin_eq_min, ratMax_eq_max]
  refine ⟨?_, ?_, trivial, ?_, ?_, ?_, ?_⟩
  · rw [abs_le]
    constructor
    · refine le_trans (by linarith) (le_max_left _ _)
    · exact max_le (by linarith) (min_le_left _ _)
  · rw [abs_le]
    constructor
    · refine le_trans (by linarith) (le_max_left _ _)
    · exact max_le (by linarith) (min_le_left _ _)
  · intro h
    rw [min_eq_left (le_of_lt h), max_eq_right (by linarith)]
  · intro h
    rw [min_eq_right (by linarith), max_eq_left (le_of_lt h)]
  · intro h
    rw [min_eq_left (le_of_lt h), max_eq_right (by linarith)]
  · intro h
    rw [min_eq_right (by linarith), max_eq_left (le_of_lt h)]

/-- C4 witness: a drag toward (100, ·, 100) with a 1×1 footprint object
stays within the claimed bound. -/
theorem c4_drag_updates_stay_in_bounds_witness :
    ((1:ℚ)/2 ≤ 10/2 - 3/10) ∧
    |(SelectionSystem.onMouseMoveNewPos ⟨100, 0, 100⟩ ⟨0, 0, 0⟩ (1/2) (1/2)
        ⟨0, 0, 0⟩).x| ≤ 10/2 - 3/10 - 1/2 :=
  ⟨by norm_num,
   (c4_drag_updates_stay_in_bounds ⟨100, 0, 100⟩ ⟨0, 0, 0⟩ ⟨0, 0, 0⟩ (1/2) (1/2)
     (by norm_num) (by norm_num)).1⟩

/-- C9 counterexample: with an object half-width of 5.7 the clamp yields
x = 1, not the room center 0 claimed by the spec. -/
theorem c9_degenerate_counterexample :
    (SelectionSystem.constrainToRoom (57/10) 0 ⟨0, 0, 0⟩).x = 1 ∧
    (SelectionSystem.constrainToRoom (57/10) 0 ⟨0, 0, 0⟩).x ≠ 0 := by
  have hx : (SelectionSystem.constrainToRoom (57/10) 0 ⟨0, 0, 0⟩).x = 1 := by
    norm_num [SelectionSystem.constrainToRoom, ratMin, ratMax]
  refine ⟨hx, ?_⟩
  rw [hx]
  norm_num

/-- C9 (amended): when the object's footprint exceeds the usable room
interior, the clamp produces the finite constant `objHalf − (halfExtent −
margin)` on that axis (the lower clamp bound, independent of the candidate
position) — deterministic and NaN-free, but not the room center. -/
theorem c9_degenerate_clamp_constant (objectHalfWidth objectHalfDepth : ℚ)
    (position : Vec3) :
    (10/2 - 3/10 < objectHalfWidth →
      (SelectionSystem.constrainToRoom objectHalfWidth objectHalfDepth position).x =
        objectHalfWidth - (10/2 - 3/10) ∧
      0 < (SelectionSystem.constrainToRoom objectHalfWidth objectHalfDepth position).x) ∧
    (10/2 - 3/10 < objectHalfDepth →
      (SelectionSystem.constrainToRoom objectHalfWidth objectHalfDepth position).z =
        objectHalfDepth - (10/2 - 3/10) ∧
      0 < (SelectionSystem.constrainToRoom objectHalfWidth objectHalfDepth position).z) := by
  simp only [SelectionSystem.constrainToRoom, ratMin_eq_min, ratMax_eq_max]
  constructor
  · intro h
    have hx : min (10/2 - 3/10 - objectHalfWidth) position.x ≤
        -(10/2 - 3/10) + objectHalfWidth :=
      le_trans (min_le_left _ _) (by linarith)
    rw [max_eq_left hx]
    constructor
    · ring
    · linarith
  · intro h
    have hz : min (10/2 - 3/10 - objectHalfDepth) position.z ≤
        -(10/2 - 3/10) + objectHalfDepth :=
      le_trans (min_le_left _ _) (by linarith)
    rw [max_eq_left hz]
    constructor
    · ring
    · linarith

/-- C9 witness: the degenerate clamp at half-width 5.7 gives the constant
1 = 5.7 − 4.7, strictly away from the center. -/
theorem c9_degenerate_clamp_constant_witness :
    ((10:ℚ)/2 - 3/10 < 57/10) ∧
    (SelectionSystem.constrainToRoom (57/10) 0 ⟨2, 0, 0⟩).x = 57/10 - (10/2 - 3/10) :=
  ⟨by norm_num,
   ((c9_degenerate_clamp_constant (57/10) 0 ⟨2, 0, 0⟩).1 (by norm_num)).1⟩

/-- C5 counterexample: placing a "Couch" whose asset fails to load uses
the couch fallback, whose lowest point sits at y = 1/10; `_applyScale`
leaves it there because it only repositions when the minimum is below the
floor.  The placed object floats 0.1 above the floor, far beyond any
floating-point tolerance. -/
theorem c5_floor_counterexample :
    PlacementSystem.placedMinY none ⟨"Couch", "models/couch01.glb", 16⟩ = 1/10 ∧
    PlacementSystem.placedMinY none ⟨"Couch", "models/couch01.glb", 16⟩ ≠ 0 := by
  have hc : PlacementSystem.classifyName "Couch" = PlacementSystem.FurnType.couch := by
    decide
  have h1 : includesStr (lowerList "Couch") "chair" = false := by decide
  have h2 : includesStr (lowerList "Couch") "table" = false := by decide
  have h3 : includesStr (lowerList "Couch") "couch" = true := by decide
  have ht : PlacementSystem.targetHeightOf "Couch" = 4/5 := by
    simp [PlacementSystem.targetHeightOf, h1, h2, h3]
  have hm : PlacementSystem.placedMinY none ⟨"Couch", "models/couch01.glb", 16⟩ = 1/10 := by
    norm_num [PlacementSystem.placedMinY, PlacementSystem.placeFurniture,
      PlacementSystem.applyScale, PlacementSystem.createPrimitiveFallback, hc, ht,
      PlacementSystem.scaledMinY, PlacementSystem.localMinY, PlacementSystem.localMaxY,
      PlacementSystem.rlistMin, PlacementSystem.rlistMax, PlacementSystem.meshMinY,
      PlacementSystem.meshMaxY, PlacementSystem.geomHalfY,
      PlacementSystem.createPrimitiveByType, ratMin, ratMax, ratAbs]
  refine ⟨hm, ?_⟩
  rw [hm]
  norm_num

/-- C5 (amended): after placement and scale normalization the object's
minimum world-space y is never below the floor, and it equals the floor
height exactly whenever the scaled model's lowest point was at or below
the floor; when the scaled lowest point lies strictly above the floor the
object is left floating at that height (the reposition step only fires for
`minY < 0`). -/
theorem c5_placement_floor_contact (loaded : Option (List PlacementSystem.GMesh))
    (fd : CatalogEntry) (hne : (PlacementSystem.placeFurniture loaded fd).2 ≠ []) :
    0 ≤ PlacementSystem.placedMinY loaded fd ∧
    (PlacementSystem.scaledMinY (PlacementSystem.placeFurniture loaded fd).1.scaleFactor
        (PlacementSystem.placeFurniture loaded fd).2 ≤ 0 →
      PlacementSystem.placedMinY loaded fd = 0) ∧
    (0 < PlacementSystem.scaledMinY (PlacementSystem.placeFurniture loaded fd).1.scaleFactor
        (PlacementSystem.placeFurniture loaded fd).2 →
      PlacementSystem.placedMinY loaded fd =
        PlacementSystem.scaledMinY (PlacementSystem.placeFurniture loaded fd).1.scaleFactor
          (PlacementSystem.placeFurniture loaded fd).2) := by
  have hspec : (PlacementSystem.placeFurniture loaded fd).1.posY =
      if PlacementSystem.scaledMinY (PlacementSystem.placeFurniture loaded fd).1.scaleFactor
          (PlacementSystem.placeFurniture loaded fd).2 < 0
      then -(PlacementSystem.scaledMinY (PlacementSystem.placeFurniture loaded fd).1.scaleFactor
          (PlacementSystem.placeFurniture loaded fd).2)
      else 0 := rfl
  have hval : PlacementSystem.placedMinY loaded fd =
      (PlacementSystem.placeFurniture loaded fd).1.posY +
        PlacementSystem.scaledMinY (PlacementSystem.placeFurniture loaded fd).1.scaleFactor
          (PlacementSystem.placeFurniture loaded fd).2 := rfl
  rw [hval, hspec]
  by_cases hq : PlacementSystem.scaledMinY
      (PlacementSystem.placeFurniture loaded fd).1.scaleFactor
      (PlacementSystem.placeFurniture loaded fd).2 < 0
  · rw [if_pos hq]
    exact ⟨by linarith, fun _ => by linarith, fun h0 => by linarith⟩
  · rw [if_neg hq]
    push_neg at hq
    exact ⟨by linarith, fun hle => by linarith, fun h0 => by linarith⟩

/-- C5 witness: the chair fallback (lowest point exactly at the floor)
ends with minimum world y = 0. -/
theorem c5_placement_floor_contact_witness :
    (PlacementSystem.placeFurniture none ⟨"Chair", "models/chair01.glb", 12⟩).2 ≠ [] ∧
    0 ≤ PlacementSystem.placedMinY none ⟨"Chair", "models/chair01.glb", 12⟩ := by
  have hc : PlacementSystem.classifyName "Chair" = PlacementSystem.FurnType.chair := by
    decide
  have hne : (PlacementSystem.placeFurniture none ⟨"Chair", "models/chair01.glb", 12⟩).2 ≠ [] := by
    simp [PlacementSystem.placeFurniture, PlacementSystem.createPrimitiveFallback, hc,
      PlacementSystem.createPrimitiveByType]
  exact ⟨hne, (c5_placement_floor_contact none ⟨"Chair", "models/chair01.glb", 12⟩ hne).1⟩

/-- C6 counterexample: for a "Chair" the placement engine's fallback is a
six-mesh typed placeholder while the layout serializer's fallback is the
single gray box — they are not the same placeholder. -/
theorem c6_fallback_counterexample :
    PlacementSystem.createPrimitiveFallback ⟨"Chair", "models/chair01.glb", 12⟩ ≠
      PlacementSystem.storageFallbackPrimitive "Chair" := by
  have hc : PlacementSystem.classifyName "Chair" = PlacementSystem.FurnType.chair := by
    decide
  simp [PlacementSystem.createPrimitiveFallback, hc,
    PlacementSystem.createPrimitiveByType, PlacementSystem.storageFallbackPrimitive]

/-- C6 (amended): the layout serializer's deserialization fallback is the
same fixed gray 1×0.5×1 box for every furniture type — it performs no
name-substring classification — and therefore never coincides with the
placement engine's type-classified placeholder, whatever the catalog
entry. -/
theorem c6_fallbacks_never_agree (fd : CatalogEntry) (t : String) :
    PlacementSystem.createPrimitiveFallback fd ≠
      PlacementSystem.storageFallbackPrimitive t ∧
    ∀ t2 : String, PlacementSystem.storageFallbackPrimitive t =
      PlacementSystem.storageFallbackPrimitive t2 := by
  constructor
  · cases hc : PlacementSystem.classifyName fd.name <;>
      simp [PlacementSystem.createPrimitiveFallback, hc,
        PlacementSystem.createPrimitiveByType, PlacementSystem.storageFallbackPrimitive] <;>
      norm_num
  · intro t2
    rfl

/-- Restoring materials never touches the orbit-controls flag. -/
theorem restore_preserves_orbit (i : ℕ) (s : SelectionSystem.SelState) :
    (SelectionSystem.restoreOriginalMaterials i s).orbitEnabled = s.orbitEnabled := rfl

/-- Highlighting never touches the orbit-controls flag. -/
theorem highlight_preserves_orbit (i : ℕ) (s : SelectionSystem.SelState) :
    (SelectionSystem.applyHighlightTo i s).orbitEnabled = s.orbitEnabled := by
  unfold SelectionSystem.applyHighlightTo
  split <;> rfl

/-- Deselection never touches the orbit-controls flag. -/
theorem deselect_preserves_orbit (s : SelectionSystem.SelState) :
    (SelectionSystem.deselect s).orbitEnabled = s.orbitEnabled := by
  unfold SelectionSystem.deselect
  split <;> rfl

/-- The set-and-highlight half of `select` never touches the
orbit-controls flag. -/
theorem selectApply_preserves_orbit (i : ℕ) (s : SelectionSystem.SelState) :
    (SelectionSystem.selectApply i s).orbitEnabled = s.orbitEnabled := by
  unfold SelectionSystem.selectApply
  rw [highlight_preserves_orbit]

/-- Selection never touches the orbit-controls flag. -/
theorem select_preserves_orbit (i : ℕ) (s : SelectionSystem.SelState) :
    (SelectionSystem.select i s).orbitEnabled = s.orbitEnabled := by
  unfold SelectionSystem.select
  rw [selectApply_preserves_orbit]
  split
  · exact deselect_preserves_orbit s
  · rfl

/-- The external-selection subscriber never touches the orbit-controls flag. -/
theorem updateSelection_preserves_orbit (o : Option ℕ) (s : SelectionSystem.SelState) :
    (SelectionSystem.updateSelection o s).orbitEnabled = s.orbitEnabled := by
  unfold SelectionSystem.updateSelection
  split
  · rfl
  · split
    · rw [selectApply_preserves_orbit]
      split <;> rfl
    · split <;> rfl

/-- No engine step ever writes the orbit-controls flag. -/
theorem step_preserves_orbit (e : SelectionSystem.SelEvent) (s : SelectionSystem.SelState) :
    (SelectionSystem.step e s).orbitEnabled = s.orbitEnabled := by
  cases e with
  | mouseDown hit =>
    cases hit with
    | none =>
      simp only [SelectionSystem.step, SelectionSystem.onMouseDown]
      split
      · exact deselect_preserves_orbit s
      · rfl
    | some i =>
      simp only [SelectionSystem.step, SelectionSystem.onMouseDown]
      split
      · rfl
      · exact select_preserves_orbit i s
  | mouseUp =>
    simp only [SelectionSystem.step, SelectionSystem.onMouseUp]
    split <;> rfl
  | escape =>
    simp only [SelectionSystem.step, SelectionSystem.onEscape]
    split
    · rfl
    · exact deselect_preserves_orbit s
  | extSelect o => exact updateSelection_preserves_orbit o s

/-- C2: the code never disables the orbit controls during a drag.  The
controls flag is invariant under every pointer/selection event, and after
pointer-down on the already-selected item the engine is dragging while the
orbit controls are still enabled — refuting the claimed mutual exclusion.
The surrounding code documents the opposite intent (`main.js` passes the
controls "to disable during drag", and `ControlsManager.setEnabled` exists
for it but has no caller), so this is a bug in the code, not in the
claim. -/
theorem c2_drag_leaves_orbit_enabled :
    (∀ (evs : List SelectionSystem.SelEvent) (s : SelectionSystem.SelState),
      (SelectionSystem.run evs s).orbitEnabled = s.orbitEnabled) ∧
    (SelectionSystem.run
      [SelectionSystem.SelEvent.mouseDown (some 1), SelectionSystem.SelEvent.mouseUp,
       SelectionSystem.SelEvent.mouseDown (some 1)] sampleSelInit).isDragging = true ∧
    (SelectionSystem.run
      [SelectionSystem.SelEvent.mouseDown (some 1), SelectionSystem.SelEvent.mouseUp,
       SelectionSystem.SelEvent.mouseDown (some 1)] sampleSelInit).orbitEnabled = true := by
  have hrun : ∀ (evs : List SelectionSystem.SelEvent) (s : SelectionSystem.SelState),
      (SelectionSystem.run evs s).orbitEnabled = s.orbitEnabled := by
    intro evs
    induction evs with
    | nil => intro s; rfl
    | cons e rest ih =>
      intro s
      have h1 : SelectionSystem.run (e :: rest) s =
          SelectionSystem.run rest (SelectionSystem.step e s) := rfl
      rw [h1, ih, step_preserves_orbit]
  refine ⟨hrun, ?_, ?_⟩
  · simp [SelectionSystem.run, SelectionSystem.step, SelectionSystem.onMouseDown,
      SelectionSystem.onMouseUp, SelectionSystem.select, SelectionSystem.selectApply,
      SelectionSystem.applyHighlightTo, SelectionSystem.highlightMeshes,
      SelectionSystem.highlightMesh, SelectionSystem.updateItem,
      SelectionSystem.startDrag, sampleSelInit]
  · rw [hrun]
    rfl

/-- C7 counterexample: for a record carrying both a top-level path
("top-level.glb") and a nested catalog path ("nested.glb"), deserialization
loads and records the top-level path — the nested linkage is not
preferred. -/
theorem c7_path_preference_counterexample :
    ((StorageManager.deserializeObject "f0" taggingLoader samplePathDoc).meshes.map
      Mesh.name) = ["top-level.glb"] ∧
    (StorageManager.deserializeObject "f0" taggingLoader samplePathDoc).userData.furniturePath =
      some "top-level.glb" ∧
    (StorageManager.deserializeObject "f0" taggingLoader samplePathDoc).userData.furniturePath ≠
      some "nested.glb" := by
  refine ⟨?_, ?_, ?_⟩ <;>
    simp [StorageManager.deserializeObject, StorageManager.resolveModelPath,
      samplePathDoc, taggingLoader]

/-- C7 (amended): deserialization resolves the asset path preferring the
legacy top-level `furniturePath` field, and falls back to the nested
`furnitureData.path` only when the top-level field is absent or empty: a
nonempty top-level path is stored back into the rebuilt `userData` and the
result depends on the loader only through that path. -/
theorem c7_path_resolution_prefers_top_level (freshUuid : String) (d : SerializedObject) :
    (∀ loader, d.furniturePath ≠ "" →
      (StorageManager.deserializeObject freshUuid loader d).userData.furniturePath =
        some d.furniturePath) ∧
    (∀ loader1 loader2, d.furniturePath ≠ "" →
      loader1 d.furniturePath = loader2 d.furniturePath →
      StorageManager.deserializeObject freshUuid loader1 d =
        StorageManager.deserializeObject freshUuid loader2 d) ∧
    (∀ loader, d.furniturePath = "" →
      (StorageManager.deserializeObject freshUuid loader d).userData.furniturePath =
        d.furnitureData.bind (fun fd => fd.path)) := by
  refine ⟨?_, ?_, ?_⟩
  · intro loader h
    simp [StorageManager.deserializeObject, StorageManager.resolveModelPath, h]
  · intro loader1 loader2 h hagree
    have hres : StorageManager.resolveModelPath d = some d.furniturePath := by
      simp [StorageManager.resolveModelPath, h]
    have hb : (d.furniturePath == "") = false := beq_eq_false_iff_ne.mpr h
    simp only [StorageManager.deserializeObject, hres, hb, Bool.false_eq_true,
      if_false, hagree]
  · intro loader h
    simp [StorageManager.deserializeObject, StorageManager.resolveModelPath, h]

/-- C7 witness: the amended resolution applied to the two-path record. -/
theorem c7_path_resolution_prefers_top_level_witness :
    samplePathDoc.furniturePath ≠ "" ∧
    (StorageManager.deserializeObject "f0" taggingLoader samplePathDoc).userData.furniturePath =
      some samplePathDoc.furniturePath :=
  ⟨by decide,
   (c7_path_resolution_prefers_top_level "f0" samplePathDoc).1 taggingLoader (by decide)⟩

namespace PropertiesPanel

/-- `find?` skips a prefix in which nothing matches. -/
theorem find?_skip_front {α : Type} (p : α → Bool) (l1 l2 : List α)
    (h : l1.find? p = none) : (l1 ++ l2).find? p = l2.find? p := by
  induction l1 with
  | nil => rfl
  | cons a t ih =>
    cases hpa : p a with
    | true =>
      rw [List.find?_cons_of_pos _ hpa] at h
      exact absurd h (by simp)
    | false =>
      rw [List.find?_cons_of_neg _ (by simp [hpa])] at h
      rw [List.cons_append, List.find?_cons_of_neg _ (by simp [hpa])]
      exact ih h

/-- A fresh snapshot appends the object's entry. -/
theorem storeOriginal_fresh (st : Store) (o : PPObject)
    (h : List.find? (fun e => e.1 == o.uuid) st = none) :
    storeOriginalColors st o = st ++ [(o.uuid, snapshotOf o)] := by
  unfold storeOriginalColors
  rw [h]

/-- A second snapshot request is a no-op. -/
theorem storeOriginal_found (st : Store) (o : PPObject)
    (h : (List.find? (fun e => e.1 == o.uuid) st).isSome) :
    storeOriginalColors st o = st := by
  unfold storeOriginalColors
  cases hf : List.find? (fun e => e.1 == o.uuid) st with
  | none => rw [hf] at h; exact absurd h (by simp)
  | some e => rfl

/-- Every mutation preserves the object uuid, the mesh uuids and the
channel availability of every mesh. -/
theorem applyOp_skeleton (op : MutOp) (o : PPObject) (st : Store) :
    (applyOp op (o, st)).1.uuid = o.uuid ∧
    uuidsOf (applyOp op (o, st)).1 = uuidsOf o ∧
    channelPresence (applyOp op (o, st)).1 = channelPresence o := by
  cases op with
  | color c =>
    refine ⟨rfl, ?_, ?_⟩
    · simp only [applyOp, applyColor, uuidsOf, List.map_map]
      refine List.map_congr_left ?_
      intro m hm
      by_cases h1 : m.material.isCloned <;> by_cases h2 : m.material.color.isSome <;>
        simp [cloneIfShared, h1, h2]
    · simp only [applyOp, applyColor, channelPresence, List.map_map]
      refine List.map_congr_left ?_
      intro m hm
      by_cases h1 : m.material.isCloned <;> by_cases h2 : m.material.color.isSome <;>
        simp [cloneIfShared, presOfMesh, h1, h2]
  | preset p =>
    refine ⟨rfl, ?_, ?_⟩
    · simp only [applyOp, applyMaterialPreset, uuidsOf, List.map_map]
      refine List.map_congr_left ?_
      intro m hm
      by_cases h1 : m.material.isCloned <;> by_cases h2 : m.material.metalness.isSome <;>
        by_cases h3 : m.material.roughness.isSome <;>
        simp [cloneIfShared, h1, h2, h3]
    · simp only [applyOp, applyMaterialPreset, channelPresence, List.map_map]
      refine List.map_congr_left ?_
      intro m hm
      by_cases h1 : m.material.isCloned <;> by_cases h2 : m.material.metalness.isSome <;>
        by_cases h3 : m.material.roughness.isSome <;>
        simp [cloneIfShared, presOfMesh, h1, h2, h3]
  | opacity v =>
    refine ⟨rfl, ?_, ?_⟩
    · simp only [applyOp, applyOpacity, uuidsOf, List.map_map]
      refine List.map_congr_left ?_
      intro m hm
      by_cases h1 : m.material.isCloned <;> simp [cloneIfShared, h1]
    · simp only [applyOp, applyOpacity, channelPresence, List.map_map]
      refine List.map_congr_left ?_
      intro m hm
      by_cases h1 : m.material.isCloned <;> simp [cloneIfShared, presOfMesh, h1]

/-- Once the snapshot exists, no mutation changes the map. -/
theorem applyOp_keeps_store (op : MutOp) (o : PPObject) (st : Store)
    (h : (List.find? (fun e => e.1 == o.uuid) st).isSome) :
    (applyOp op (o, st)).2 = st := by
  cases op with
  | color c => simpa [applyOp, applyColor] using storeOriginal_found st o h
  | preset p => simpa [applyOp, applyMaterialPreset] using storeOriginal_found st o h
  | opacity v => rfl

/-- With the snapshot already present, a mutation run preserves the
object skeleton and the map. -/
theorem applyOps_found (ops : List MutOp) :
    ∀ (o : PPObject) (st : Store), (List.find? (fun e => e.1 == o.uuid) st).isSome →
    (applyOps ops (o, st)).1.uuid = o.uuid ∧
    uuidsOf (applyOps ops (o, st)).1 = uuidsOf o ∧
    channelPresence (applyOps ops (o, st)).1 = channelPresence o ∧
    (applyOps ops (o, st)).2 = st := by
  induction ops with
  | nil => exact fun o st _ => ⟨rfl, rfl, rfl, rfl⟩
  | cons op rest ih =>
    intro o st h
    obtain ⟨h1, h2, h3⟩ := applyOp_skeleton op o st
    have hst : (applyOp op (o, st)).2 = st := applyOp_keeps_store op o st h
    have happ : applyOps (op :: rest) (o, st) = applyOps rest (applyOp op (o, st)) := rfl
    rcases hE : applyOp op (o, st) with ⟨o1, st1⟩
    rw [hE] at h1 h2 h3 hst
    dsimp only at h1 h2 h3 hst
    have hfind1 : (List.find? (fun e => e.1 == o1.uuid) st1).isSome := by
      rw [hst, h1]
      exact h
    obtain ⟨g1, g2, g3, g4⟩ := ih o1 st1 hfind1
    rw [happ, hE]
    exact ⟨by rw [g1, h1], by rw [g2, h2], by rw [g3, h3], by rw [g4, hst]⟩

/-- A mutation run whose first operation snapshots (color or preset)
captures exactly the pre-mutation snapshot, keyed by the object uuid, and
preserves the object skeleton. -/
theorem applyOps_snapshot (ops : List MutOp) (o : PPObject) (st : Store)
    (hfresh : List.find? (fun e => e.1 == o.uuid) st = none)
    (hfirst : firstOpSnapshots ops) :
    (applyOps ops (o, st)).1.uuid = o.uuid ∧
    uuidsOf (applyOps ops (o, st)).1 = uuidsOf o ∧
    channelPresence (applyOps ops (o, st)).1 = channelPresence o ∧
    (applyOps ops (o, st)).2 = st ++ [(o.uuid, snapshotOf o)] := by
  cases ops with
  | nil => exact absurd hfirst (by simp [firstOpSnapshots])
  | cons op rest =>
    have hst1 : (applyOp op (o, st)).2 = st ++ [(o.uuid, snapshotOf o)] := by
      cases op with
      | color c => simpa [applyOp, applyColor] using storeOriginal_fresh st o hfresh
      | preset p => simpa [applyOp, applyMaterialPreset] using storeOriginal_fresh st o hfresh
      | opacity v => exact absurd hfirst (by simp [firstOpSnapshots])
    obtain ⟨h1, h2, h3⟩ := applyOp_skeleton op o st
    have happ : applyOps (op :: rest) (o, st) = applyOps rest (applyOp op (o, st)) := rfl
    rcases hE : applyOp op (o, st) with ⟨o1, st1⟩
    rw [hE] at h1 h2 h3 hst1
    dsimp only at h1 h2 h3 hst1
    have hfind1 : (List.find? (fun e => e.1 == o1.uuid) st1).isSome := by
      rw [hst1, h1, find?_skip_front _ _ _ hfresh]
      simp
    obtain ⟨g1, g2, g3, g4⟩ := applyOps_found rest o1 st1 hfind1
    rw [happ, hE]
    exact ⟨by rw [g1, h1], by rw [g2, h2], by rw [g3, h3], by rw [g4, hst1]⟩

/-- Resetting a mesh never changes its uuid. -/
theorem resetMesh_uuid (entries : List OrigEntry) (m : Mesh) :
    (resetMesh entries m).uuid = m.uuid := by
  unfold resetMesh
  split <;> rfl

/-- Restoring from the snapshot of a presence-compatible mesh recovers
that mesh's channel values. -/
theorem resetMesh_chan (entries : List OrigEntry) (m m0 : Mesh)
    (hfind : List.find? (fun e => e.uuid == m.uuid) entries = some (snapEntry m0))
    (hpres : presOfMesh m = presOfMesh m0) :
    chanOfMesh (resetMesh entries m) = chanOfMesh m0 := by
  simp only [presOfMesh, Prod.mk.injEq] at hpres
  obtain ⟨e1, e2, e3⟩ := hpres
  unfold resetMesh
  rw [hfind]
  cases h0c : m0.material.color <;> cases hmc : m.material.color <;>
    cases h0m : m0.material.metalness <;>
    cases h0r : m0.material.roughness <;>
    simp_all [chanOfMesh, snapEntry]

/-- Restoring a mesh list from its own snapshot (behind an unmatched
prefix) recovers the original channel values. -/
theorem reset_list_chan (ms0 : List Mesh) :
    ∀ (ms : List Mesh) (pre : List OrigEntry),
    (∀ m ∈ ms, List.find? (fun e => e.uuid == m.uuid) pre = none) →
    ms.map Mesh.uuid = ms0.map Mesh.uuid →
    ms.map presOfMesh = ms0.map presOfMesh →
    (ms0.map Mesh.uuid).Nodup →
    (ms.map (resetMesh (pre ++ ms0.map snapEntry))).map chanOfMesh =
      ms0.map chanOfMesh := by
  induction ms0 with
  | nil =>
    intro ms pre hp hu hpr hnd
    cases ms with
    | nil => rfl
    | cons m t => simp at hu
  | cons m0 t0 ih =>
    intro ms pre hp hu hpr hnd
    cases ms with
    | nil => simp at hu
    | cons m t =>
      simp only [List.map_cons, List.cons.injEq] at hu hpr
      obtain ⟨huh, hut⟩ := hu
      obtain ⟨hph, hpt⟩ := hpr
      simp only [List.map_cons, List.nodup_cons] at hnd
      obtain ⟨hmem, hndt⟩ := hnd
      simp only [List.map_cons, List.cons.injEq]
      constructor
      · have hfind : List.find? (fun e => e.uuid == m.uuid)
            (pre ++ (m0 :: t0).map snapEntry) = some (snapEntry m0) := by
          rw [List.map_cons, find?_skip_front _ _ _ (hp m (by simp))]
          exact List.find?_cons_of_pos _ (by simp [snapEntry, huh])
        exact resetMesh_chan _ m m0 hfind hph
      · have hassoc : pre ++ snapEntry m0 :: t0.map snapEntry =
            (pre ++ [snapEntry m0]) ++ t0.map snapEntry := by
          simp
        rw [hassoc]
        refine ih t (pre ++ [snapEntry m0]) ?_ hut hpt hndt
        intro m2 hm2
        rw [find?_skip_front _ _ _ (hp m2 (by simp [hm2]))]
        have hne : m0.uuid ≠ m2.uuid := by
          intro hcontra
          refine hmem ?_
          rw [hcontra]
          rw [← hut]
          exact List.mem_map_of_mem Mesh.uuid hm2
        rw [List.find?_cons_of_neg _ (by simp [snapEntry, hne])]
        rfl

/-- Resetting twice in a row leaves each mesh unchanged the second time. -/
theorem resetMesh_idem (entries : List OrigEntry) (m : Mesh) :
    resetMesh entries (resetMesh entries m) = resetMesh entries m := by
  cases hf : List.find? (fun e => e.uuid == m.uuid) entries with
  | none =>
    have h1 : resetMesh entries m = m := by
      unfold resetMesh
      rw [hf]
    rw [h1, h1]
  | some orig =>
    have hu : (resetMesh entries m).uuid = m.uuid := resetMesh_uuid entries m
    have houter : List.find? (fun e => e.uuid == (resetMesh entries m).uuid) entries =
        some orig := by
      rw [hu, hf]
    conv_lhs => rw [resetMesh.eq_def]
    rw [houter]
    conv_lhs => rw [resetMesh.eq_def]
    rw [hf]
    conv_rhs => rw [resetMesh.eq_def]
    rw [hf]
    cases hoc : orig.color <;> cases hmc : m.material.color <;>
      cases hom : orig.metalness <;> cases hor : orig.roughness <;>
      simp_all

/-- C8 (amended): reset-to-original restores every sub-mesh's color,
metalness, roughness and opacity to the snapshot captured lazily at the
first color or material-preset mutation (opacity-only edits are not
snapshotted), keyed by item identity; the snapshot is retained rather than
cleared, reset with no snapshot is a no-op, and a second consecutive reset
changes nothing (reset is idempotent). -/
theorem c8_reset_restores_snapshot (o : PPObject) (st : Store) (ops : List MutOp)
    (hfresh : List.find? (fun e => e.1 == o.uuid) st = none)
    (hnodup : (uuidsOf o).Nodup)
    (hfirst : firstOpSnapshots ops) :
    channelValues (resetColor (applyOps ops (o, st)).1 (applyOps ops (o, st)).2).1 =
      channelValues o ∧
    (List.find? (fun e => e.1 == o.uuid)
      (resetColor (applyOps ops (o, st)).1 (applyOps ops (o, st)).2).2).isSome ∧
    (∀ (o2 : PPObject) (st2 : Store),
      resetColor (resetColor o2 st2).1 (resetColor o2 st2).2 = resetColor o2 st2) ∧
    (∀ (o3 : PPObject) (st3 : Store),
      List.find? (fun e => e.1 == o3.uuid) st3 = none → resetColor o3 st3 = (o3, st3)) := by
  obtain ⟨h1, h2, h3, h4⟩ := applyOps_snapshot ops o st hfresh hfirst
  rcases hE : applyOps ops (o, st) with ⟨o1, st1⟩
  rw [hE] at h1 h2 h3 h4
  dsimp only at h1 h2 h3 h4
  have hfind : List.find? (fun e => e.1 == o1.uuid) st1 = some (o.uuid, snapshotOf o) := by
    rw [h4, h1, find?_skip_front _ _ _ hfresh]
    exact List.find?_cons_of_pos _ (by simp)
  have hreset : resetColor o1 st1 =
      ({ o1 with meshes := o1.meshes.map (resetMesh (snapshotOf o)) }, st1) := by
    unfold resetColor
    rw [hfind]
  refine ⟨?_, ?_, ?_, ?_⟩
  · rw [hreset]
    simp only [channelValues, uuidsOf] at h2 ⊢
    simp only [channelPresence] at h3
    have hnil : snapshotOf o = [] ++ o.meshes.map snapEntry := by
      simp [snapshotOf]
    rw [hnil]
    exact reset_list_chan o.meshes o1.meshes []
      (fun m _ => rfl) h2 h3 (by simpa [uuidsOf] using hnodup)
  · rw [hreset]
    dsimp only
    rw [h4, find?_skip_front _ _ _ hfresh]
    simp
  · intro o2 st2
    cases hf2 : List.find? (fun e => e.1 == o2.uuid) st2 with
    | none =>
      have hid : resetColor o2 st2 = (o2, st2) := by
        unfold resetColor
        rw [hf2]
      rw [hid, hid]
    | some e =>
      have hone : resetColor o2 st2 =
          ({ o2 with meshes := o2.meshes.map (resetMesh e.2) }, st2) := by
        unfold resetColor
        rw [hf2]
      rw [hone]
      unfold resetColor
      dsimp only
      rw [hf2]
      dsimp only
      have hmm : (o2.meshes.map (resetMesh e.2)).map (resetMesh e.2) =
          o2.meshes.map (resetMesh e.2) := by
        rw [List.map_map]
        exact List.map_congr_left (fun m _ => resetMesh_idem e.2 m)
      rw [hmm]
  · intro o3 st3 h
    unfold resetColor
    rw [h]

end PropertiesPanel

/-- C8 counterexample: after a color edit, reset leaves the snapshot in
the map (it is not cleared); and an opacity-only edit is never
snapshotted, so reset after it restores nothing (the opacity stays 1/2
instead of the original 1). -/
theorem c8_reset_counterexample :
    (List.find? (fun e => e.1 == "obj1")
      (PropertiesPanel.resetColor
        (PropertiesPanel.applyOps [PropertiesPanel.MutOp.color 0xff0000]
          (samplePPObject, [])).1
        (PropertiesPanel.applyOps [PropertiesPanel.MutOp.color 0xff0000]
          (samplePPObject, [])).2).2).isSome = true ∧
    (PropertiesPanel.applyOps [PropertiesPanel.MutOp.opacity (1/2)]
      (samplePPObject, [])).2 = [] ∧
    PropertiesPanel.channelValues
      (PropertiesPanel.resetColor
        (PropertiesPanel.applyOps [PropertiesPanel.MutOp.opacity (1/2)]
          (samplePPObject, [])).1
        (PropertiesPanel.applyOps [PropertiesPanel.MutOp.opacity (1/2)]
          (samplePPObject, [])).2).1 ≠
      PropertiesPanel.channelValues samplePPObject := by
  refine ⟨?_, ?_, ?_⟩
  · simp [PropertiesPanel.applyOps, PropertiesPanel.applyOp, PropertiesPanel.applyColor,
      PropertiesPanel.storeOriginalColors, PropertiesPanel.resetColor,
      PropertiesPanel.snapshotOf, PropertiesPanel.snapEntry, PropertiesPanel.cloneIfShared,
      PropertiesPanel.resetMesh, samplePPObject]
  · rfl
  · norm_num [PropertiesPanel.applyOps, PropertiesPanel.applyOp,
      PropertiesPanel.applyOpacity, PropertiesPanel.resetColor,
      PropertiesPanel.channelValues, PropertiesPanel.chanOfMesh,
      PropertiesPanel.cloneIfShared, samplePPObject]

/-- C8 witness: a color edit followed by an opacity edit, then reset,
restores the original channel values. -/
theorem c8_reset_restores_snapshot_witness :
    List.find? (fun e => e.1 == samplePPObject.uuid) ([] : PropertiesPanel.Store) = none ∧
    (PropertiesPanel.uuidsOf samplePPObject).Nodup ∧
    PropertiesPanel.firstOpSnapshots
      [PropertiesPanel.MutOp.color 0xff0000, PropertiesPanel.MutOp.opacity (1/2)] ∧
    PropertiesPanel.channelValues
      (PropertiesPanel.resetColor
        (PropertiesPanel.applyOps
          [PropertiesPanel.MutOp.color 0xff0000, PropertiesPanel.MutOp.opacity (1/2)]
          (samplePPObject, [])).1
        (PropertiesPanel.applyOps
          [PropertiesPanel.MutOp.color 0xff0000, PropertiesPanel.MutOp.opacity (1/2)]
          (samplePPObject, [])).2).1 =
      PropertiesPanel.channelValues samplePPObject :=
  ⟨rfl, by decide, trivial,
   (PropertiesPanel.c8_reset_restores_snapshot samplePPObject []
     [PropertiesPanel.MutOp.color 0xff0000, PropertiesPanel.MutOp.opacity (1/2)]
     rfl (by decide) trivial).1⟩

namespace StorageManager

/-- A string chain with a nonempty default is never empty. -/
theorem jsStrChain_ne (a b : Option String) (d : String) (hd : d ≠ "") :
    jsStrChain a b d ≠ "" := by
  cases a <;> cases b <;> simp [jsStrChain, jsStrOrD] <;> (try split_ifs) <;> simp_all

/-- A truthy first component wins the chain. -/
theorem jsStrChain_some_of_ne (t : String) (b : Option String) (d : String)
    (ht : t ≠ "") : jsStrChain (some t) b d = t := by
  simp [jsStrChain, jsStrOrD, ht]

/-- Re-serializing keeps an already-resolved nonempty type name. -/
theorem jsStrChain_stable (a b c : Option String) (d : String) (hd : d ≠ "") :
    jsStrChain (some (jsStrChain a b d)) c d = jsStrChain a b d :=
  jsStrChain_some_of_ne _ c d (jsStrChain_ne a b d hd)

/-- If the whole chain with empty default is empty, so is its second leg. -/
theorem jsStrChain_empty_second (a b : Option String)
    (h : jsStrChain a b "" = "") : jsStrOrD b "" = "" := by
  cases a <;> simp [jsStrChain, jsStrOrD] at h ⊢ <;> (try split_ifs at h ⊢) <;> simp_all

/-- A falsy leg chained with itself stays empty. -/
theorem jsStrChain_self_empty (b : Option String) (h : jsStrOrD b "" = "") :
    jsStrChain b b "" = "" := by
  cases b <;> simp [jsStrChain, jsStrOrD] at h ⊢ <;> (try split_ifs at h ⊢) <;> simp_all

/-- A nonzero first component wins the id chain. -/
theorem jsNatChain_some_of_ne (t : ℕ) (b : Option ℕ) (ht : t ≠ 0) :
    jsNatChain (some t) b 0 = t := by
  simp [jsNatChain, jsNatOrD, ht]

/-- If the id chain is zero, so is its second leg. -/
theorem jsNatChain_zero_second (a b : Option ℕ) (h : jsNatChain a b 0 = 0) :
    jsNatOrD b 0 = 0 := by
  cases a <;> simp [jsNatChain, jsNatOrD] at h ⊢ <;> (try split_ifs at h ⊢) <;> simp_all

/-- The deserialized `userData` in closed form. -/
theorem deser_userData (freshUuid : String) (loader : String → Option (List Mesh))
    (d : SerializedObject) :
    (deserializeObject freshUuid loader d).userData =
      { furnitureType := some d.furnitureType,
        furniturePath := resolveModelPath d,
        furnitureId := some d.furnitureId,
        furnitureData := some (d.furnitureData.getD
          { name := some d.furnitureType, path := resolveModelPath d,
            id := some d.furnitureId }),
        isSelectable := true } := rfl

/-- Serialization of any object, field by field. -/
theorem serialize_furnitureType (x : Obj3D) :
    (serializeObject x).furnitureType =
      jsStrChain x.userData.furnitureType
        ((x.userData.furnitureData.getD emptyFurnitureData).name) "unknown" := rfl

/-- The serialized asset path, field by field. -/
theorem serialize_furniturePath (x : Obj3D) :
    (serializeObject x).furniturePath =
      jsStrChain x.userData.furniturePath
        ((x.userData.furnitureData.getD emptyFurnitureData).path) "" := rfl

/-- The serialized catalog id, field by field. -/
theorem serialize_furnitureId (x : Obj3D) :
    (serializeObject x).furnitureId =
      jsNatChain x.userData.furnitureId
        ((x.userData.furnitureData.getD emptyFurnitureData).id) 0 := rfl

/-- The serialized nested record, field by field. -/
theorem serialize_furnitureData (x : Obj3D) :
    (serializeObject x).furnitureData =
      some (x.userData.furnitureData.getD emptyFurnitureData) := rfl

/-- Path resolution on a freshly serialized record. -/
theorem resolve_serialized (obj : Obj3D) :
    resolveModelPath (serializeObject obj) =
      if (serializeObject obj).furniturePath == "" then
        (obj.userData.furnitureData.getD emptyFurnitureData).path
      else some (serializeObject obj).furniturePath := by
  rw [resolveModelPath, serialize_furnitureData]
  rfl

end StorageManager

namespace StorageManager

/-- `modsOf` unfolded over a cons cell. -/
theorem modsOf_cons (m : Mesh) (l : List Mesh) :
    modsOf (m :: l) =
      if m.material.isCloned then modOf m :: modsOf l else modsOf l := by
  simp only [modsOf, List.filterMap_cons]
  split_ifs with h <;> simp [h]

/-- `modsOf` distributes over append. -/
theorem modsOf_append (l1 l2 : List Mesh) :
    modsOf (l1 ++ l2) = modsOf l1 ++ modsOf l2 := by
  simp [modsOf, List.filterMap_append]

/-- Nothing in the recorded deltas matches a key that differs from every
recorded (nonempty) sub-mesh name, for either of two such keys. -/
theorem modsOf_find_none (orig : List Mesh) (key u : String)
    (hne : ∀ o ∈ orig, o.name ≠ "")
    (hkey : ∀ o ∈ orig, key ≠ o.name) (hu : ∀ o ∈ orig, u ≠ o.name) :
    (modsOf orig).find? (fun mo => mo.childName == key || mo.childName == u) = none := by
  induction orig with
  | nil => rfl
  | cons o0 rest ih =>
    have hne0 : o0.name ≠ "" := hne o0 (by simp)
    rw [modsOf_cons]
    have ihr := ih (fun o ho => hne o (by simp [ho]))
      (fun o ho => hkey o (by simp [ho])) (fun o ho => hu o (by simp [ho]))
    split_ifs with hc
    · rw [List.find?_cons_of_neg, ihr]
      simp [modOf, hne0]
      exact ⟨fun hcontra => (hkey o0 (by simp)) hcontra.symm,
             fun hcontra => (hu o0 (by simp)) hcontra.symm⟩
    · exact ihr

/-- The first recorded delta matching a sub-mesh's own name (or a fresh
uuid matching no name) is exactly that sub-mesh's delta — present iff its
material was cloned. -/
theorem modsOf_find (orig : List Mesh) (hnd : (orig.map Mesh.name).Nodup)
    (hne : ∀ o ∈ orig, o.name ≠ "") (o : Mesh) (ho : o ∈ orig) (u : String)
    (hu : ∀ o2 ∈ orig, u ≠ o2.name) :
    (modsOf orig).find? (fun mo => mo.childName == o.name || mo.childName == u) =
      if o.material.isCloned then some (modOf o) else none := by
  induction orig with
  | nil => exact absurd ho (by simp)
  | cons o0 rest ih =>
    simp only [List.map_cons, List.nodup_cons] at hnd
    obtain ⟨hmem, hndr⟩ := hnd
    rw [modsOf_cons]
    rcases List.mem_cons.mp ho with rfl | hor
    · split_ifs with hc
      · exact List.find?_cons_of_pos _ (by simp [modOf, hne o (by simp)])
      · refine modsOf_find_none rest o.name u (fun o2 h2 => hne o2 (by simp [h2])) ?_ ?_
        · intro o2 h2 hcontra
          exact hmem (hcontra ▸ List.mem_map_of_mem Mesh.name h2)
        · intro o2 h2
          exact hu o2 (by simp [h2])
    · have hneq : o0.name ≠ o.name := by
        intro hcontra
        exact hmem (hcontra ▸ List.mem_map_of_mem Mesh.name hor)
      have ihr := ih hndr (fun o2 h2 => hne o2 (by simp [h2])) hor
        (fun o2 h2 => hu o2 (by simp [h2]))
      by_cases hc : o0.material.isCloned = true
      · rw [if_pos hc, List.find?_cons_of_neg]
        · exact ihr
        · simp [modOf, hne o0 (by simp)]
          exact ⟨hneq, fun hcontra => (hu o0 (by simp)) hcontra.symm⟩
      · rw [if_neg hc]
        exact ihr

end StorageManager

namespace StorageManager

/-- `applyMaterialMods` distributes over cons. -/
theorem applyMods_cons (mods : List MatMod) (m : Mesh) (l : List Mesh) :
    applyMaterialMods mods (m :: l) =
      applyMaterialMods mods [m] ++ applyMaterialMods mods l := by
  simp [applyMaterialMods]

/-- Re-applying the recorded delta to a matching fresh sub-mesh marks it
cloned and reproduces exactly the recorded delta. -/
theorem applyMods_single_cloned (mods : List MatMod) (m o : Mesh)
    (hmo : MeshPairOk m o) (hne : o.name ≠ "")
    (hfind : mods.find? (fun mo2 => mo2.childName == m.name || mo2.childName == m.uuid) =
      some (modOf o)) :
    modsOf (applyMaterialMods mods [m]) = [modOf o] := by
  obtain ⟨hname, hcol, hmet, hrough, hclon⟩ := hmo
  simp only [applyMaterialMods, List.map_cons, List.map_nil]
  rw [hfind]
  have hnamene : m.name ≠ "" := by rw [hname]; exact hne
  cases hoc : o.material.color <;> cases hmc : m.material.color <;>
    cases hom : o.material.metalness <;> cases hmm2 : m.material.metalness <;>
    cases hor : o.material.roughness <;> cases hmr : m.material.roughness <;>
    simp_all [modOf, modsOf, List.filterMap_cons, hname, hnamene]

/-- A fresh sub-mesh matching no recorded delta stays pristine and
contributes no delta. -/
theorem applyMods_single_clean (mods : List MatMod) (m : Mesh)
    (hclon : m.material.isCloned = false)
    (hfind : mods.find? (fun mo2 => mo2.childName == m.name || mo2.childName == m.uuid) =
      none) :
    modsOf (applyMaterialMods mods [m]) = [] := by
  simp only [applyMaterialMods, List.map_cons, List.map_nil]
  rw [hfind, modsOf_cons, if_neg (by simp [hclon])]
  rfl

/-- Applying the recorded deltas to a fresh instance reproduces exactly
the recorded deltas, pairwise. -/
theorem applyMods_roundtrip (mods : List MatMod) (ms orig : List Mesh)
    (h : List.Forall₂ (fun m o => MeshPairOk m o ∧ o.name ≠ "" ∧
      mods.find? (fun mo2 => mo2.childName == m.name || mo2.childName == m.uuid) =
        (if o.material.isCloned then some (modOf o) else none)) ms orig) :
    modsOf (applyMaterialMods mods ms) = modsOf orig := by
  induction h with
  | nil => rfl
  | @cons m o t t0 hpair hrest ih =>
    obtain ⟨hmo, hne, hfind⟩ := hpair
    rw [applyMods_cons, modsOf_append, ih, modsOf_cons]
    by_cases hc : o.material.isCloned = true
    · rw [if_pos hc] at hfind
      rw [if_pos hc, applyMods_single_cloned mods m o hmo hne hfind]
      rfl
    · rw [if_neg hc] at hfind
      rw [if_neg hc, applyMods_single_clean mods m
        (by simpa using hmo.2.2.2.2) hfind]
      rfl

/-- `FreshMatch` yields, for every mesh pair, the find?-characterization
needed for the round trip. -/
theorem freshMatch_forall₂ (ms orig : List Mesh) (hf : FreshMatch ms orig) :
    List.Forall₂ (fun m o => MeshPairOk m o ∧ o.name ≠ "" ∧
      (modsOf orig).find? (fun mo2 => mo2.childName == m.name || mo2.childName == m.uuid) =
        (if o.material.isCloned then some (modOf o) else none)) ms orig := by
  obtain ⟨hpairs, hne, hnd, huuid⟩ := hf
  refine List.forall₂_of_length_eq_of_get hpairs.length_eq ?_
  intro i h1 h2
  have hpair := hpairs.get h1 h2
  have homem : orig.get ⟨i, h2⟩ ∈ orig := List.get_mem orig i h2
  have hmmem : ms.get ⟨i, h1⟩ ∈ ms := List.get_mem ms i h1
  refine ⟨hpair, hne _ homem, ?_⟩
  have hkey : (ms.get ⟨i, h1⟩).name = (orig.get ⟨i, h2⟩).name := hpair.1
  rw [hkey]
  exact modsOf_find orig hnd hne (orig.get ⟨i, h2⟩) homem ((ms.get ⟨i, h1⟩).uuid)
    (fun o2 h2m => huuid _ hmmem o2 h2m)

/-- A fully pristine instance serializes to no deltas. -/
theorem modsOf_pristine (ms orig : List Mesh)
    (hpairs : List.Forall₂ MeshPairOk ms orig) : modsOf ms = [] := by
  induction hpairs with
  | nil => rfl
  | @cons m o t t0 hpair hrest ih =>
    rw [modsOf_cons, if_neg (by simp [hpair.2.2.2.2]), ih]

end StorageManager

namespace StorageManager

/-- Re-serializing the resolved model path reproduces the serialized
path, in both the truthy and the falsy case. -/
theorem path_chain_stable (a b : Option String) :
    jsStrChain (if (jsStrChain a b "" == "") = true then b else some (jsStrChain a b ""))
      b "" = jsStrChain a b "" := by
  by_cases h : jsStrChain a b "" = ""
  · rw [h]
    simp only [beq_self_eq_true, if_true]
    exact jsStrChain_self_empty b (jsStrChain_empty_second a b h)
  · have hb : (jsStrChain a b "" == "") = false := by simp [h]
    rw [hb]
    simp only [Bool.false_eq_true, if_false]
    exact jsStrChain_some_of_ne _ b "" h

/-- Re-serializing the restored catalog id reproduces the serialized id. -/
theorem id_chain_stable (a b : Option ℕ) :
    jsNatChain (some (jsNatChain a b 0)) b 0 = jsNatChain a b 0 := by
  by_cases h : jsNatChain a b 0 = 0
  · rw [h]
    have h2 := jsNatChain_zero_second a b h
    simp only [jsNatChain, jsNatOrD, beq_self_eq_true, if_true] at h2 ⊢
    exact h2
  · exact jsNatChain_some_of_ne _ b h

/-- Serialization of the deltas depends only on the recorded delta list. -/
theorem serializeMaterialMods_congr (x y : Obj3D) (h : modsOf x.meshes = modsOf y.meshes) :
    serializeMaterialMods x = serializeMaterialMods y := by
  simp [serializeMaterialMods, h]

end StorageManager

/-- C1 (amended): the per-item round trip reproduces the exact transform
triples, the display name and the full catalog linkage unconditionally —
also under placeholder substitution — and reproduces the recorded set of
material deltas whenever the asset reloads into a fresh instance with the
same, distinct, nonempty sub-mesh names and channels; when the asset is
unavailable, the placeholder's meshes match no recorded delta, so the
deltas are not re-applied to the in-memory item (and are absent when it is
serialized again). -/
theorem c1_roundtrip_amended (obj : Obj3D) (freshUuid : String)
    (loader : String → Option (List Mesh)) :
    (StorageManager.roundTrip freshUuid loader obj).position = obj.position ∧
    (StorageManager.roundTrip freshUuid loader obj).rotation = obj.rotation ∧
    (StorageManager.roundTrip freshUuid loader obj).scale = obj.scale ∧
    (StorageManager.roundTrip freshUuid loader obj).name = obj.name ∧
    (StorageManager.serializeObject (StorageManager.roundTrip freshUuid loader obj)).furnitureType =
      (StorageManager.serializeObject obj).furnitureType ∧
    (StorageManager.serializeObject (StorageManager.roundTrip freshUuid loader obj)).furniturePath =
      (StorageManager.serializeObject obj).furniturePath ∧
    (StorageManager.serializeObject (StorageManager.roundTrip freshUuid loader obj)).furnitureId =
      (StorageManager.serializeObject obj).furnitureId ∧
    (StorageManager.serializeObject (StorageManager.roundTrip freshUuid loader obj)).furnitureData =
      (StorageManager.serializeObject obj).furnitureData ∧
    (∀ (p : String) (ms : List Mesh),
      StorageManager.resolveModelPath (StorageManager.serializeObject obj) = some p →
      p ≠ "" → loader p = some ms → StorageManager.FreshMatch ms obj.meshes →
      StorageManager.serializeMaterialMods (StorageManager.roundTrip freshUuid loader obj) =
        StorageManager.serializeMaterialMods obj) := by
  refine ⟨rfl, rfl, rfl, rfl, ?_, ?_, ?_, rfl, ?_⟩
  · show jsStrChain (some (jsStrChain obj.userData.furnitureType
        ((obj.userData.furnitureData.getD emptyFurnitureData).name) "unknown"))
      ((obj.userData.furnitureData.getD emptyFurnitureData).name) "unknown" =
      jsStrChain obj.userData.furnitureType
        ((obj.userData.furnitureData.getD emptyFurnitureData).name) "unknown"
    exact StorageManager.jsStrChain_stable _ _ _ _ (by decide)
  · show jsStrChain
      (if (jsStrChain obj.userData.furniturePath
            ((obj.userData.furnitureData.getD emptyFurnitureData).path) "" == "") = true then
         (obj.userData.furnitureData.getD emptyFurnitureData).path
       else some (jsStrChain obj.userData.furniturePath
            ((obj.userData.furnitureData.getD emptyFurnitureData).path) ""))
      ((obj.userData.furnitureData.getD emptyFurnitureData).path) "" =
      jsStrChain obj.userData.furniturePath
        ((obj.userData.furnitureData.getD emptyFurnitureData).path) ""
    exact StorageManager.path_chain_stable _ _
  · show jsNatChain (some (jsNatChain obj.userData.furnitureId
        ((obj.userData.furnitureData.getD emptyFurnitureData).id) 0))
      ((obj.userData.furnitureData.getD emptyFurnitureData).id) 0 =
      jsNatChain obj.userData.furnitureId
        ((obj.userData.furnitureData.getD emptyFurnitureData).id) 0
    exact StorageManager.id_chain_stable _ _
  · intro p ms hres hp hl hfm
    have hpb : (p == "") = false := by simp [hp]
    have hmeshes : (StorageManager.roundTrip freshUuid loader obj).meshes =
        (match (StorageManager.serializeObject obj).materialMods with
         | some mods => StorageManager.applyMaterialMods mods ms
         | none => ms) := by
      simp only [StorageManager.roundTrip, StorageManager.deserializeObject, hres, hpb,
        Bool.false_eq_true, if_false, hl]
    have hmods : StorageManager.modsOf (StorageManager.roundTrip freshUuid loader obj).meshes =
        StorageManager.modsOf obj.meshes := by
      rw [hmeshes]
      cases hsm : (StorageManager.serializeObject obj).materialMods with
      | none =>
        have hser : StorageManager.serializeMaterialMods obj = none := hsm
        have hnil : StorageManager.modsOf obj.meshes = [] := by
          by_cases h0 : StorageManager.modsOf obj.meshes = []
          · exact h0
          · exfalso
            simp [StorageManager.serializeMaterialMods, h0] at hser
        rw [hnil]
        obtain ⟨hpairs, h1, h2, h3⟩ := hfm
        exact StorageManager.modsOf_pristine ms obj.meshes hpairs
      | some mods =>
        have hser : StorageManager.serializeMaterialMods obj = some mods := hsm
        have hmodseq : mods = StorageManager.modsOf obj.meshes := by
          by_cases h0 : StorageManager.modsOf obj.meshes = []
          · simp [StorageManager.serializeMaterialMods, h0] at hser
          · simp [StorageManager.serializeMaterialMods, h0] at hser
            exact hser.symm
        rw [hmodseq]
        exact StorageManager.applyMods_roundtrip _ ms obj.meshes
          (StorageManager.freshMatch_forall₂ ms obj.meshes hfm)
    exact StorageManager.serializeMaterialMods_congr _ _ hmods

/-- C1 counterexample: when the chair asset is unavailable at reload time,
the placeholder's single unnamed mesh matches no recorded delta, so the
reloaded item carries no material deltas while the original carried one —
the round trip does not reproduce the deltas "regardless of whether the
original asset loads". -/
theorem c1_roundtrip_counterexample :
    StorageManager.serializeMaterialMods
      (StorageManager.roundTrip "fresh-uuid" (fun _ => none) sampleChair) = none ∧
    StorageManager.serializeMaterialMods sampleChair ≠ none := by
  constructor
  · simp [StorageManager.roundTrip, StorageManager.deserializeObject,
      StorageManager.serializeObject, StorageManager.serializeMaterialMods,
      StorageManager.resolveModelPath, StorageManager.applyMaterialMods,
      StorageManager.createFallbackPrimitive, StorageManager.modsOf,
      StorageManager.modOf, jsStrChain, jsStrOrD, sampleChair]
  · simp [StorageManager.serializeMaterialMods, StorageManager.modsOf,
      StorageManager.modOf, sampleChair]

/-- C1 witness: with the chair asset reloading into a fresh matching
instance, the round trip reproduces transform and deltas. -/
theorem c1_roundtrip_amended_witness :
    StorageManager.resolveModelPath (StorageManager.serializeObject sampleChair) =
      some "models/chair01.glb" ∧
    ("models/chair01.glb" ≠ "") ∧
    sampleLoader "models/chair01.glb" = some sampleChairFresh ∧
    StorageManager.FreshMatch sampleChairFresh sampleChair.meshes ∧
    (StorageManager.roundTrip "fresh-uuid" sampleLoader sampleChair).position =
      sampleChair.position ∧
    StorageManager.serializeMaterialMods
      (StorageManager.roundTrip "fresh-uuid" sampleLoader sampleChair) =
      StorageManager.serializeMaterialMods sampleChair := by
  have hres : StorageManager.resolveModelPath (StorageManager.serializeObject sampleChair) =
      some "models/chair01.glb" := by
    simp [StorageManager.resolveModelPath, StorageManager.serializeObject,
      jsStrChain, jsStrOrD, sampleChair]
  have hload : sampleLoader "models/chair01.glb" = some sampleChairFresh := by
    simp [sampleLoader]
  have hfm : StorageManager.FreshMatch sampleChairFresh sampleChair.meshes := by
    decide
  have h := c1_roundtrip_amended sampleChair "fresh-uuid" sampleLoader
  exact ⟨hres, by decide, hload, hfm, h.1,
    h.2.2.2.2.2.2.2.2 "models/chair01.glb" sampleChairFresh hres (by decide) hload hfm⟩

namespace SelectionSystem

/-- `emissiveIntensity || 0` of a present value is that value. -/
theorem jsQOrZero_some (q : ℚ) : jsQOrZero (some q) = q := by
  by_cases h : q = 0 <;> simp [jsQOrZero, h]

/-- Highlighting a mesh list whose uuids are fresh for the map appends
exactly the pre-highlight snapshot and tints every emissive mesh. -/
theorem highlightMeshes_fresh (ms : List EmMesh) :
    ∀ (st : List OrigMat),
    (∀ m ∈ ms, List.find? (fun e => e.uuid == m.uuid) st = none) →
    (ms.map EmMesh.uuid).Nodup →
    highlightMeshes st ms = (st ++ storeOf ms, highlightedMeshes ms) := by
  induction ms with
  | nil =>
    intro st hfresh hnd
    simp [highlightMeshes, storeOf, highlightedMeshes]
  | cons m t ih =>
    intro st hfresh hnd
    simp only [List.map_cons, List.nodup_cons] at hnd
    obtain ⟨hmem, hndt⟩ := hnd
    have hm : List.find? (fun e => e.uuid == m.uuid) st = none := hfresh m (by simp)
    have hstep : highlightMesh st m =
        (st ++ [{ uuid := m.uuid,
                  emissive := if m.hasEmissive then some m.emissive else none,
                  intensity := if m.hasEmissive then some m.intensity else none }],
         if m.hasEmissive then { m with emissive := 0x003300, intensity := 1/2 } else m) := by
      unfold highlightMesh
      rw [hm]
    have hrest : ∀ m2 ∈ t, List.find? (fun e => e.uuid == m2.uuid)
        (st ++ [{ uuid := m.uuid,
                  emissive := if m.hasEmissive then some m.emissive else none,
                  intensity := if m.hasEmissive then some m.intensity else none }]) = none := by
      intro m2 hm2
      rw [PropertiesPanel.find?_skip_front _ _ _ (hfresh m2 (by simp [hm2]))]
      have hne : m.uuid ≠ m2.uuid := by
        intro hcontra
        exact hmem (hcontra ▸ List.mem_map_of_mem EmMesh.uuid hm2)
      rw [List.find?_cons_of_neg _ (by simp [hne])]
      rfl
    have iht := ih (st ++ [OrigMat.mk m.uuid
        (if m.hasEmissive then some m.emissive else none)
        (if m.hasEmissive then some m.intensity else none)]) hrest hndt
    simp only [highlightMeshes, hstep, iht]
    simp [storeOf, highlightedMeshes, List.append_assoc]

/-- Restoring the highlighted meshes from the recorded snapshot (behind an
unmatched prefix) recovers the original meshes exactly. -/
theorem restore_highlighted (ms0 : List EmMesh) :
    ∀ (pre : List OrigMat),
    (∀ m ∈ ms0, List.find? (fun e => e.uuid == m.uuid) pre = none) →
    (ms0.map EmMesh.uuid).Nodup →
    (highlightedMeshes ms0).map (restoreMesh (pre ++ storeOf ms0)) = ms0 := by
  induction ms0 with
  | nil =>
    intro pre hp hnd
    rfl
  | cons m0 t0 ih =>
    intro pre hp hnd
    simp only [List.map_cons, List.nodup_cons] at hnd
    obtain ⟨hmem, hndt⟩ := hnd
    have hhuuid : (if m0.hasEmissive then
        { m0 with emissive := 0x003300, intensity := 1/2 } else m0).uuid = m0.uuid := by
      split <;> rfl
    have hfind : List.find? (fun e => e.uuid ==
        (if m0.hasEmissive then { m0 with emissive := 0x003300, intensity := 1/2 }
         else m0).uuid) (pre ++ storeOf (m0 :: t0)) = some
        { uuid := m0.uuid,
          emissive := if m0.hasEmissive then some m0.emissive else none,
          intensity := if m0.hasEmissive then some m0.intensity else none } := by
      rw [hhuuid]
      have hsto : pre ++ storeOf (m0 :: t0) = pre ++
          ({ uuid := m0.uuid,
             emissive := if m0.hasEmissive then some m0.emissive else none,
             intensity := if m0.hasEmissive then some m0.intensity else none } ::
            storeOf t0) := rfl
      rw [hsto, PropertiesPanel.find?_skip_front _ _ _ (hp m0 (by simp))]
      exact List.find?_cons_of_pos _ (by simp)
    have hhead : restoreMesh (pre ++ storeOf (m0 :: t0))
        (if m0.hasEmissive then { m0 with emissive := 0x003300, intensity := 1/2 }
         else m0) = m0 := by
      unfold restoreMesh
      rw [hfind]
      cases m0 with
      | mk u he ev iv =>
        cases he <;> simp [jsQOrZero_some]
    have htail : (highlightedMeshes t0).map (restoreMesh (pre ++ storeOf (m0 :: t0))) =
        t0 := by
      have hrw : pre ++ storeOf (m0 :: t0) = (pre ++
          [{ uuid := m0.uuid,
             emissive := if m0.hasEmissive then some m0.emissive else none,
             intensity := if m0.hasEmissive then some m0.intensity else none }]) ++
          storeOf t0 := by
        simp [storeOf]
      rw [hrw]
      refine ih _ ?_ hndt
      intro m2 hm2
      rw [PropertiesPanel.find?_skip_front _ _ _ (hp m2 (by simp [hm2]))]
      have hne : m0.uuid ≠ m2.uuid := by
        intro hcontra
        exact hmem (hcontra ▸ List.mem_map_of_mem EmMesh.uuid hm2)
      rw [List.find?_cons_of_neg _ (by simp [hne])]
      rfl
    have hexp : highlightedMeshes (m0 :: t0) =
        (if m0.hasEmissive then { m0 with emissive := 0x003300, intensity := 1/2 }
         else m0) :: highlightedMeshes t0 := rfl
    rw [hexp, List.map_cons, hhead, htail]

/-- Updating twice at the same id composes, if the first update preserves
ids. -/
theorem updateItem_comp (i : ℕ) (f g : SelItem → SelItem) (l : List SelItem)
    (hf : ∀ it, (f it).id = it.id) :
    updateItem i g (updateItem i f l) = updateItem i (fun it => g (f it)) l := by
  induction l with
  | nil => rfl
  | cons a t ih =>
    simp only [updateItem, List.map_cons] at ih ⊢
    by_cases ha : (a.id == i) = true
    · rw [if_pos ha, if_pos (by rw [hf a]; exact ha), if_pos ha]
      exact congrArg _ (by simpa [updateItem] using ih)
    · rw [if_neg ha, if_neg ha, if_neg ha]
      exact congrArg _ (by simpa [updateItem] using ih)

/-- An id-preserving update keeps the id list. -/
theorem updateItem_ids (i : ℕ) (f : SelItem → SelItem) (l : List SelItem)
    (hf : ∀ it, (f it).id = it.id) :
    (updateItem i f l).map (fun it => it.id) = l.map (fun it => it.id) := by
  induction l with
  | nil => rfl
  | cons a t ih =>
    simp only [updateItem, List.map_cons] at ih ⊢
    simp only [List.cons.injEq]
    refine ⟨?_, ?_⟩
    · split <;> simp [hf]
    · simpa [updateItem] using ih

/-- Finding by id commutes with an id-preserving update at that id. -/
theorem find?_updateItem (i : ℕ) (f : SelItem → SelItem) (l : List SelItem)
    (hf : ∀ it, (f it).id = it.id) :
    List.find? (fun it => it.id == i) (updateItem i f l) =
      (List.find? (fun it => it.id == i) l).map f := by
  induction l with
  | nil => rfl
  | cons a t ih =>
    simp only [updateItem, List.map_cons]
    by_cases ha : (a.id == i) = true
    · rw [if_pos ha]
      rw [@List.find?_cons_of_pos _ (fun it => it.id == i) (f a)
          (List.map (fun it => if (it.id == i) = true then f it else it) t)
          (by show ((f a).id == i) = true; rw [hf a]; exact ha),
        @List.find?_cons_of_pos _ (fun it => it.id == i) a t ha]
      rfl
    · rw [if_neg ha]
      rw [@List.find?_cons_of_neg _ (fun it => it.id == i) a
          (List.map (fun it => if (it.id == i) = true then f it else it) t)
          (by simp_all),
        @List.find?_cons_of_neg _ (fun it => it.id == i) a t (by simp_all)]
      simpa [updateItem] using ih

/-- With distinct ids, any member with the sought id is the find result. -/
theorem find?_of_mem_nodup (l : List SelItem) (a : ℕ) (it : SelItem)
    (hmem : it ∈ l) (hid : it.id = a) (hnd : (l.map (fun x => x.id)).Nodup) :
    List.find? (fun x => x.id == a) l = some it := by
  induction l with
  | nil => exact absurd hmem (by simp)
  | cons h t ih =>
    simp only [List.map_cons, List.nodup_cons] at hnd
    obtain ⟨hh, hnt⟩ := hnd
    rcases List.mem_cons.mp hmem with rfl | hmt
    · exact List.find?_cons_of_pos _ (by simp [hid])
    · have hne : (h.id == a) = false := by
        simp only [beq_eq_false_iff_ne]
        intro hcontra
        exact hh (hcontra ▸ hid ▸ List.mem_map_of_mem (fun x => x.id) hmt)
      rw [List.find?_cons_of_neg _ (by simp [hne])]
      exact ih hmt hnt

/-- Each item of a globally uuid-distinct scene has distinct mesh uuids. -/
theorem nodup_of_mem_flat (l : List SelItem) (x : SelItem)
    (hnd : (l.flatMap (fun it => it.meshes.map (fun m => m.uuid))).Nodup)
    (hx : x ∈ l) : (x.meshes.map (fun m => m.uuid)).Nodup := by
  induction l with
  | nil => exact absurd hx (by simp)
  | cons h t ih =>
    rw [List.flatMap_cons] at hnd
    rcases List.mem_cons.mp hx with rfl | hxt
    · exact hnd.of_append_left
    · exact ih hnd.of_append_right hxt

/-- Restoring and unflagging the selected item of an invariant state
returns the item list to its initial contents. -/
theorem restore_unflag_items (store : List OrigMat) (a : ℕ) :
    ∀ (items items0 : List SelItem),
    List.Forall₂ (fun it it0 => it.id = it0.id ∧
      (if it0.id = a then
        it = { it0 with isSelected := true, meshes := highlightedMeshes it0.meshes } ∧
        store = storeOf it0.meshes ∧ (it0.meshes.map (fun m => m.uuid)).Nodup ∧
        it0.isSelected = false
       else it = it0)) items items0 →
    updateItem a (fun it => { it with isSelected := false })
      (updateItem a (fun it => { it with meshes := it.meshes.map (restoreMesh store) })
        items) = items0 := by
  intro items items0 h
  induction h with
  | nil => rfl
  | @cons it it0 t t0 hpair hrest ih =>
    obtain ⟨hid, hcond⟩ := hpair
    simp only [updateItem, List.map_cons] at ih ⊢
    by_cases hia : it0.id = a
    · rw [if_pos hia] at hcond
      obtain ⟨hit, hstore, hnodup, hflag⟩ := hcond
      have hbeq : (it.id == a) = true := by simp [hid, hia]
      rw [if_pos hbeq]
      have hbeq2 : (({ it with meshes := it.meshes.map (restoreMesh store) }).id == a) =
          true := hbeq
      rw [if_pos hbeq2]
      have hr : it.meshes.map (restoreMesh store) = it0.meshes := by
        rw [hit, hstore]
        have := restore_highlighted it0.meshes [] (fun m _ => rfl) hnodup
        rwa [List.nil_append] at this
      simp only [List.cons.injEq]
      refine ⟨?_, by simpa [updateItem] using ih⟩
      cases it0 with
      | mk u fl ms =>
        simp only at hflag
        subst hflag
        rw [hit] at hr ⊢
        simp only at hr
        simp [hr]
    · rw [if_neg hia] at hcond
      have hbeq : (it.id == a) = false := by simp [hid, hia]
      rw [if_neg (by simp [hbeq])]
      rw [if_neg (by simp [hbeq])]
      simp only [List.cons.injEq]
      exact ⟨hcond, by simpa [updateItem] using ih⟩

/-- An id-preserving update relates pointwise to the original list. -/
theorem updateItem_forall₂ (i : ℕ) (F : SelItem → SelItem) (l : List SelItem)
    (hF : ∀ it, (F it).id = it.id) :
    List.Forall₂ (fun it it0 => it.id = it0.id ∧
      (if it0.id = i then it = F it0 else it = it0)) (updateItem i F l) l := by
  induction l with
  | nil => exact List.Forall₂.nil
  | cons a t ih =>
    simp only [updateItem, List.map_cons]
    refine List.Forall₂.cons ?_ (by simpa [updateItem] using ih)
    by_cases ha : a.id = i
    · rw [if_pos (by simp [ha]), if_pos ha]
      exact ⟨hF a, rfl⟩
    · rw [if_neg (by simp [ha]), if_neg ha]
      exact ⟨rfl, rfl⟩

/-- An id in the id list yields a successful find. -/
theorem findItem_isSome_of_mem (s0 : SelState) (i : ℕ)
    (hnd : (s0.items.map (fun it => it.id)).Nodup)
    (hmem : i ∈ s0.items.map (fun it => it.id)) : (findItem i s0).isSome := by
  obtain ⟨it, hit, hid⟩ := List.mem_map.mp hmem
  rw [findItem, find?_of_mem_nodup s0.items i it hit hid hnd]
  rfl

/-- Deselecting under the invariant restores the initial item list and
clears the map and the selection reference. -/
theorem deselect_state (s0 s : SelState) (a : ℕ) (h0 : InitOk s0) (h : Inv s0 s)
    (ha : s.selected = some a) :
    deselect s = { items := s0.items, selected := none, origMaterials := [],
                   isDragging := s.isDragging, orbitEnabled := s.orbitEnabled } := by
  obtain ⟨horb, hmatch⟩ := h
  rw [ha] at hmatch
  obtain ⟨hisome, hfa, hstore⟩ := hmatch
  obtain ⟨h0sel, h0orig, h0drag, h0orb, h0flags, h0ids, h0uuids⟩ := h0
  obtain ⟨it0, hit0⟩ := Option.isSome_iff_exists.mp hisome
  have hostore : s.origMaterials = storeOf it0.meshes := hstore it0 hit0
  have hen : List.Forall₂ (fun it it0x => it.id = it0x.id ∧
      (if it0x.id = a then
        it = { it0x with isSelected := true, meshes := highlightedMeshes it0x.meshes } ∧
        s.origMaterials = storeOf it0x.meshes ∧
        (it0x.meshes.map (fun m => m.uuid)).Nodup ∧ it0x.isSelected = false
       else it = it0x)) s.items s0.items := by
    refine List.forall₂_of_length_eq_of_get hfa.length_eq ?_
    intro j h1 h2
    obtain ⟨hid, hcond⟩ := hfa.get h1 h2
    refine ⟨hid, ?_⟩
    by_cases hia : (s0.items.get ⟨j, h2⟩).id = a
    · rw [if_pos hia] at hcond ⊢
      have hmem := List.get_mem s0.items j h2
      have hfind0 : findItem a s0 = some (s0.items.get ⟨j, h2⟩) := by
        rw [findItem]
        exact find?_of_mem_nodup _ a _ hmem hia h0ids
      have hit0eq : s0.items.get ⟨j, h2⟩ = it0 :=
        Option.some.inj (hfind0.symm.trans hit0)
      refine ⟨hcond, ?_, ?_, ?_⟩
      · rw [hostore, hit0eq]
      · exact nodup_of_mem_flat s0.items _ h0uuids hmem
      · exact h0flags _ hmem
    · rw [if_neg hia] at hcond ⊢
      exact hcond
  have hd : deselect s =
      { items := updateItem a (fun it => { it with isSelected := false })
          (updateItem a
            (fun it => { it with meshes := it.meshes.map (restoreMesh s.origMaterials) })
            s.items),
        selected := none, origMaterials := [],
        isDragging := s.isDragging, orbitEnabled := s.orbitEnabled } := by
    unfold deselect restoreOriginalMaterials
    rw [ha]
  rw [hd, restore_unflag_items s.origMaterials a s.items s0.items hen]

/-- Selecting from a pristine state under the invariant yields the
invariant highlighted state. -/
theorem selectApply_state (s0 s : SelState) (i : ℕ) (h0 : InitOk s0)
    (hitems : s.items = s0.items) (horig : s.origMaterials = [])
    (horb : s.orbitEnabled = s0.orbitEnabled)
    (hmem : i ∈ s0.items.map (fun it => it.id)) :
    Inv s0 (selectApply i s) ∧ (selectApply i s).selected = some i := by
  obtain ⟨h0sel, h0orig2, h0drag, h0orb, h0flags, h0ids, h0uuids⟩ := h0
  have hisome := findItem_isSome_of_mem s0 i h0ids hmem
  obtain ⟨it0, hit0⟩ := Option.isSome_iff_exists.mp hisome
  have hit0f : List.find? (fun it => it.id == i) s0.items = some it0 := hit0
  have hidflag : ∀ it : SelItem,
      (({ it with isSelected := true } : SelItem)).id = it.id := fun it => rfl
  have hfind : List.find? (fun it => it.id == i)
      (updateItem i (fun it => { it with isSelected := true }) s.items) =
      some { it0 with isSelected := true } := by
    rw [hitems, find?_updateItem i _ s0.items hidflag, hit0f]
    rfl
  have hmem0 : it0 ∈ s0.items := List.mem_of_find?_eq_some hit0f
  have hnodupm : (it0.meshes.map (fun m => m.uuid)).Nodup :=
    nodup_of_mem_flat s0.items it0 h0uuids hmem0
  have hhl : highlightMeshes s.origMaterials it0.meshes =
      (storeOf it0.meshes, highlightedMeshes it0.meshes) := by
    rw [horig]
    exact highlightMeshes_fresh it0.meshes [] (fun m _ => rfl) hnodupm
  have hsa : selectApply i s =
      { items := updateItem i
          (fun it2 => { it2 with meshes := highlightedMeshes it0.meshes })
          (updateItem i (fun it => { it with isSelected := true }) s.items),
        selected := some i, origMaterials := storeOf it0.meshes,
        isDragging := s.isDragging, orbitEnabled := s.orbitEnabled } := by
    unfold selectApply applyHighlightTo
    dsimp only
    rw [hfind]
    dsimp only
    rw [hhl]
  refine ⟨?_, by rw [hsa]⟩
  rw [hsa]
  refine ⟨horb, ?_⟩
  refine ⟨hisome, ?_, ?_⟩
  · rw [hitems, updateItem_comp i _ _ s0.items hidflag]
    have hfa := updateItem_forall₂ i
      (fun it => { it with isSelected := true, meshes := highlightedMeshes it0.meshes })
      s0.items (fun it => rfl)
    refine List.forall₂_of_length_eq_of_get hfa.length_eq ?_
    intro j h1 h2
    obtain ⟨hid, hcond⟩ := hfa.get h1 h2
    refine ⟨hid, ?_⟩
    by_cases hia : (s0.items.get ⟨j, h2⟩).id = i
    · rw [if_pos hia] at hcond ⊢
      have hfind0 : findItem i s0 = some (s0.items.get ⟨j, h2⟩) := by
        rw [findItem]
        exact find?_of_mem_nodup _ i _ (List.get_mem s0.items j h2) hia h0ids
      have hit0eq : s0.items.get ⟨j, h2⟩ = it0 :=
        Option.some.inj (hfind0.symm.trans hit0f)
      rw [hcond, hit0eq]
    · rw [if_neg hia] at hcond ⊢
      exact hcond
  · intro it0x hit0x
    have : it0x = it0 := Option.some.inj ((hit0x).symm.trans hit0)
    rw [this]

/-- Restore-and-unflag returns the items to their initial contents. -/
theorem restore_items_eq (s0 s : SelState) (a : ℕ) (h0 : InitOk s0) (h : Inv s0 s)
    (ha : s.selected = some a) :
    updateItem a (fun it => { it with isSelected := false })
      (restoreOriginalMaterials a s).items = s0.items := by
  have hd := deselect_state s0 s a h0 h ha
  have h1 : (deselect s).items = updateItem a (fun it => { it with isSelected := false })
      (restoreOriginalMaterials a s).items := by
    unfold deselect
    rw [ha]
  rw [← h1, hd]

/-- Every pointer/selection event preserves the reachability invariant
(given valid item references). -/
theorem step_inv (s0 s : SelState) (e : SelEvent) (h0 : InitOk s0) (h : Inv s0 s)
    (hv : ∀ i, (e = SelEvent.mouseDown (some i) ∨ e = SelEvent.extSelect (some i)) →
      i ∈ s0.items.map (fun it => it.id)) :
    Inv s0 (step e s) := by
  cases e with
  | mouseDown hit =>
    cases hit with
    | none =>
      show Inv s0 (onMouseDown none s)
      unfold onMouseDown
      dsimp only
      by_cases hd : s.isDragging = true
      · rw [hd]
        exact h
      · rw [Bool.not_eq_true] at hd
        rw [hd]
        cases hsel : s.selected with
        | none =>
          have hds : deselect s = s := by
            unfold deselect
            rw [hsel]
          show Inv s0 (deselect s)
          rw [hds]
          exact h
        | some a =>
          show Inv s0 (deselect s)
          rw [deselect_state s0 s a h0 h hsel]
          exact ⟨h.1, rfl, rfl⟩
    | some i =>
      show Inv s0 (onMouseDown (some i) s)
      have hmem := hv i (Or.inl rfl)
      unfold onMouseDown
      dsimp only
      by_cases hsi : (s.selected == some i) = true
      · rw [if_pos hsi]
        exact h
      · rw [if_neg hsi]
        unfold select
        cases hsel : s.selected with
        | none =>
          show Inv s0 (selectApply i s)
          have hm := h.2
          rw [hsel] at hm
          exact (selectApply_state s0 s i h0 hm.1 hm.2 h.1 hmem).1
        | some a =>
          rw [Bool.not_eq_true] at hsi
          rw [hsel] at hsi
          rw [hsi]
          show Inv s0 (selectApply i (deselect s))
          rw [deselect_state s0 s a h0 h hsel]
          refine (selectApply_state s0 _ i h0 ?_ ?_ ?_ hmem).1
          · rfl
          · rfl
          · exact h.1
  | mouseUp =>
    show Inv s0 (onMouseUp s)
    unfold onMouseUp
    by_cases hd : s.isDragging = true
    · rw [if_pos hd]
      exact h
    · rw [if_neg hd]
      exact h
  | escape =>
    show Inv s0 (onEscape s)
    unfold onEscape
    cases hsel : s.selected with
    | none => exact h
    | some a =>
      rw [deselect_state s0 s a h0 h hsel]
      exact ⟨h.1, rfl, rfl⟩
  | extSelect obj =>
    show Inv s0 (updateSelection obj s)
    unfold updateSelection
    by_cases hguard : (obj == s.selected) = true
    · rw [if_pos hguard]
      exact h
    · rw [if_neg hguard]
      cases obj with
      | none =>
        dsimp only
        cases hsel : s.selected with
        | none =>
          exfalso
          rw [hsel] at hguard
          exact hguard rfl
        | some a =>
          dsimp only
          exact ⟨h.1, restore_items_eq s0 s a h0 h hsel, rfl⟩
      | some i =>
        have hmem := hv i (Or.inr rfl)
        dsimp only
        cases hsel : s.selected with
        | none =>
          show Inv s0 (selectApply i s)
          have hm := h.2
          rw [hsel] at hm
          exact (selectApply_state s0 s i h0 hm.1 hm.2 h.1 hmem).1
        | some a =>
          dsimp only
          refine (selectApply_state s0 _ i h0 ?_ ?_ ?_ hmem).1
          · exact restore_items_eq s0 s a h0 h hsel
          · rfl
          · exact h.1

/-- Starting from a well-formed initial state, the invariant holds. -/
theorem inv_init (s0 : SelState) (h0 : InitOk s0) : Inv s0 s0 := by
  refine ⟨rfl, ?_⟩
  rw [h0.1]
  exact ⟨rfl, h0.2.1⟩

/-- The invariant is preserved along any valid event sequence. -/
theorem run_inv (s0 : SelState) (evs : List SelEvent) (h0 : InitOk s0)
    (hv : EvsValid s0 evs) (s : SelState) (h : Inv s0 s) :
    Inv s0 (run evs s) := by
  induction evs generalizing s h with
  | nil => exact h
  | cons e rest ih =>
    show Inv s0 (run rest (step e s))
    cases e with
    | mouseDown hit =>
      cases hit with
      | none =>
        refine ih hv _ (step_inv s0 s _ h0 h ?_)
        intro i hi
        rcases hi with hi | hi <;> cases hi
      | some j =>
        refine ih hv.2 _ (step_inv s0 s _ h0 h ?_)
        intro i hi
        rcases hi with hi | hi
        · cases hi
          exact hv.1
        · cases hi
    | mouseUp =>
      refine ih hv _ (step_inv s0 s _ h0 h ?_)
      intro i hi
      rcases hi with hi | hi <;> cases hi
    | escape =>
      refine ih hv _ (step_inv s0 s _ h0 h ?_)
      intro i hi
      rcases hi with hi | hi <;> cases hi
    | extSelect obj =>
      cases obj with
      | none =>
        refine ih hv _ (step_inv s0 s _ h0 h ?_)
        intro i hi
        rcases hi with hi | hi <;> cases hi
      | some j =>
        refine ih hv.2 _ (step_inv s0 s _ h0 h ?_)
        intro i hi
        rcases hi with hi | hi
        · cases hi
        · cases hi
          exact hv.1

/-- In every invariant state at most one item carries the selection flag. -/
theorem inv_atMostOne (s0 s : SelState) (h0 : InitOk s0) (h : Inv s0 s) :
    AtMostOneSelected s.items := by
  intro i j h1 h2 hi hj
  obtain ⟨-, -, -, -, hflags, hnodup, -⟩ := h0
  cases hsel : s.selected with
  | none =>
    have hm := h.2
    rw [hsel] at hm
    exfalso
    have hflags2 : ∀ it ∈ s.items, it.isSelected = false := by
      rw [hm.1]
      exact hflags
    rw [hflags2 _ (List.get_mem s.items i h1)] at hi
    exact Bool.false_ne_true hi
  | some a =>
    have hm := h.2
    rw [hsel] at hm
    obtain ⟨-, hf, -⟩ := hm
    have hlen := List.Forall₂.length_eq hf
    have h1a : i < s0.items.length := hlen ▸ h1
    have h2a : j < s0.items.length := hlen ▸ h2
    have hri := List.Forall₂.get hf h1 h1a
    have hrj := List.Forall₂.get hf h2 h2a
    have hia : (s0.items.get ⟨i, h1a⟩).id = a := by
      by_contra hne
      have hri2 := hri.2
      rw [if_neg hne] at hri2
      rw [hri2] at hi
      rw [hflags _ (List.get_mem s0.items i h1a)] at hi
      exact Bool.false_ne_true hi
    have hja : (s0.items.get ⟨j, h2a⟩).id = a := by
      by_contra hne
      have hrj2 := hrj.2
      rw [if_neg hne] at hrj2
      rw [hrj2] at hj
      rw [hflags _ (List.get_mem s0.items j h2a)] at hj
      exact Bool.false_ne_true hj
    have hinj := List.nodup_iff_injective_get.mp hnodup
    have hml1 : i < (s0.items.map (fun it => it.id)).length := by
      simpa using h1a
    have hml2 : j < (s0.items.map (fun it => it.id)).length := by
      simpa using h2a
    have hfin : (⟨i, hml1⟩ : Fin (s0.items.map (fun it => it.id)).length) = ⟨j, hml2⟩ := by
      apply hinj
      simp only [List.get_eq_getElem, List.getElem_map]
      exact hia.trans hja.symm
    exact congrArg Fin.val hfin

/-- Selecting `b` while `a ≠ b` is selected factors through a full
deselection of `a` first. -/
theorem select_decomposes (s : SelState) (a b : ℕ) (hsel : s.selected = some a)
    (hab : a ≠ b) : select b s = selectApply b (deselect s) := by
  unfold select
  rw [hsel]
  have hne : ((some a : Option ℕ) == some b) = false := by
    simp [hab]
  rw [hne]
  rfl

/-- C3: for any valid sequence of pick, external-select and deselect
events from a well-formed initial state, at most one placed item carries
the selection flag; and selecting `b` while `a ≠ b` is selected first
fully deselects `a` — restoring every mesh's original emissive state and
clearing the highlight store and the flag, back to the initial items —
before the highlight is applied to `b`. -/
theorem c3_single_selection (s0 : SelState) (evs : List SelEvent)
    (h0 : InitOk s0) (hv : EvsValid s0 evs) :
    AtMostOneSelected (run evs s0).items ∧
    ∀ a b : ℕ, (run evs s0).selected = some a → a ≠ b →
      select b (run evs s0) = selectApply b (deselect (run evs s0)) ∧
      deselect (run evs s0) =
        { items := s0.items, selected := none, origMaterials := [],
          isDragging := (run evs s0).isDragging,
          orbitEnabled := (run evs s0).orbitEnabled } := by
  have hinv : Inv s0 (run evs s0) := run_inv s0 evs h0 hv s0 (inv_init s0 h0)
  refine ⟨inv_atMostOne s0 _ h0 hinv, ?_⟩
  intro a b hsel hab
  exact ⟨select_decomposes _ a b hsel hab, deselect_state s0 _ a h0 hinv hsel⟩

end SelectionSystem

/-- C3 witness: the hypotheses hold and the claim applies on a concrete
two-item state after a pick of item 1. -/
theorem c3_single_selection_witness :
    SelectionSystem.InitOk sampleSelInit ∧
    SelectionSystem.EvsValid sampleSelInit
      [SelectionSystem.SelEvent.mouseDown (some 1)] ∧
    SelectionSystem.AtMostOneSelected
      (SelectionSystem.run [SelectionSystem.SelEvent.mouseDown (some 1)]
        sampleSelInit).items :=
  ⟨by decide, by decide,
   (SelectionSystem.c3_single_selection sampleSelInit
      [SelectionSystem.SelEvent.mouseDown (some 1)] (by decide) (by decide)).1⟩
